import Mathlib

/-!
# The encode server of DCP-o-matic (`src/lib/server.cc`)

A shallow embedding of `Server`: the per-job routine `Server::process`, the body of
`Server::worker_thread`, the accept loop (`start_accept` / `handle_accept`), the
destructor's shutdown flag, and the discovery responder (`broadcast_thread` /
`broadcast_received`).  A second part embeds the class `ActiveCaptions` of
`src/lib/active_captions.cc` (`get_burnt`, `clear_before`, `add_from`, `add_to`, `have`,
`clear`), and a third the join constructor and `identifier` of `SubtitleContent`
(`src/lib/subtitle_content.cc`).

Conventions of the embedding.

* A call that may throw is a value of `Throws α`; the error carries `what()`.
* Everything the server cannot decide itself (what a peer sends, whether a write
  fails, what the clock shows) is read from a script: `Peer` for one job connection,
  `Reception` for one datagram.  Classes and macros that `server.cc` uses but that
  are declared elsewhere (`Socket`, `cxml::Document`, `PlayerVideo`, `DCPVideo`,
  `SERVER_LINK_VERSION`, `DCPOMATIC_HELLO`, `Config`, ...) are fields of `Env`.
* The calls a routine makes are recorded, in program order, as a list of `Event`s.
* Threads are interleaved at the granularity of their critical sections: one
  `Action` is one stretch of code that runs with `_worker_mutex` held, or the
  lock-free stretch between two such sections.
-/

namespace Dcpomatic

/-! ## Basic types -/

/-- One `char` / `uint8_t`. -/
abbrev Byte := Nat

/-- Outcome of a call that may throw: `.error what` is an exception derived from
`std::exception` whose `what()` is `what`. -/
abbrev Throws (α : Type) := Except String α

/-- A reading of `gettimeofday`. -/
structure timeval where
  tv_sec : Int
  tv_usec : Int
deriving DecidableEq, Repr

/-- What can be handed to `_log->log`: a message of `TYPE_GENERAL`, a message of
`TYPE_ERROR`, or an `EncodedLogEntry (frame, ip, receive, encode, send)`. -/
inductive LogEntry
  | general (message : String)
  | error (message : String)
  | encoded (frame : Int) (ip : String) (receive encode send : ℚ)
deriving DecidableEq

/-- Calls made by the server, in program order. -/
inductive Event
  /-- The call `socket->read_uint32 ()`. -/
  | read_uint32
  /-- The call `socket->read (buffer, length)`. -/
  | read (length : Nat)
  /-- The call `xml->read_string (s)`. -/
  | read_string (s : List Byte)
  /-- The construction `new PlayerVideo (xml, socket)`, which reads the payload from the socket. -/
  | player_video
  /-- The construction `DCPVideo dcp_video_frame (pvf, xml, _log)`. -/
  | dcp_video
  /-- The call `dcp_video_frame.encode_locally (...)`. -/
  | encode_locally
  /-- The call `socket->write (n)` with an integer argument. -/
  | write_size (n : Nat)
  /-- The call `socket->write (data, size)`; `data` are the `size` bytes handed over. -/
  | write_data (data : List Byte)
  /-- The call `socket->socket().remote_endpoint()`. -/
  | remote_endpoint
  /-- Text sent to `cerr`. -/
  | cerr (text : String)
  /-- Text sent to `cout`. -/
  | cout (text : String)
  /-- The statement `cout << e->get() << "\n"` for a log entry `e`. -/
  | cout_entry (e : LogEntry)
  /-- The call `_log->log (e)`. -/
  | log (e : LogEntry)
  /-- The statement `socket.reset ()` on the last owner of socket number `socket`: the connection is closed. -/
  | reset (socket : Nat)
  /-- The call `socket->connect (endpoint (address, port))`. -/
  | connect (address : String) (port : Nat)
  /-- The call `store_current ()` with the exception `what` in flight. -/
  | store_current (what : String)
deriving DecidableEq

/-- Script of one job connection: the outcome of every call whose result is decided
by the remote end, the transport or the clock. -/
structure Peer where
  /-- Outcome of `socket->read_uint32 ()`. -/
  read_uint32 : Throws Nat
  /-- Outcome of `socket->read (buffer, length)`: the contents of `buffer` afterwards. -/
  read : Nat → Throws (List Byte)
  /-- Outcome of `new PlayerVideo (xml, socket)`: the payload read from the socket. -/
  player_video : Throws (List Byte)
  /-- Outcome of `socket->write (encoded.size())`. -/
  write_size : Throws Unit
  /-- Outcome of `socket->write (encoded.data().get(), encoded.size())`. -/
  write_data : Throws Unit
  /-- Outcome of `socket->socket().remote_endpoint().address().to_string()`. -/
  remote_endpoint : Throws String
  /-- Clock at `gettimeofday (&start, 0)`. -/
  start : timeval
  /-- Clock at `gettimeofday (&after_read, 0)`. -/
  after_read : timeval
  /-- Clock at `gettimeofday (&after_encode, 0)`. -/
  after_encode : timeval
  /-- Clock at `gettimeofday (&end, 0)` after the try block (line 181). -/
  end_outer : timeval
  /-- Clock at `gettimeofday (&end, 0)` inside `if (frame >= 0)` (line 189); this `end`
  shadows the outer one and is the one the log entry uses. -/
  end_inner : timeval

/-- The document built by `broadcast_received`: a root node and its children, each
with one text child. -/
structure XmlDocument where
  root : String
  children : List (String × String)
deriving DecidableEq

/-- Everything `server.cc` uses but does not define. -/
structure Env where
  /-- A parsed `cxml::Document`. -/
  Document : Type
  /-- The macro `SERVER_LINK_VERSION`. -/
  SERVER_LINK_VERSION : Int
  /-- Outcome of `xml->read_string (s)`. -/
  read_string : List Byte → Throws Document
  /-- Outcome of `xml->number_child<int> ("Version")`. -/
  number_child_Version : Document → Throws Int
  /-- Outcome of constructing `DCPVideo` from the document: the value that
  `dcp_video_frame.index ()` returns afterwards. -/
  dcp_video_index : Document → Throws Int
  /-- Outcome of `dcp_video_frame.encode_locally (...)` on a document and a payload. -/
  encode_locally : Document → List Byte → Throws (List Byte)
  /-- The function `seconds (struct timeval)`; its `double` result is taken as a rational. -/
  seconds : timeval → ℚ
  /-- Script of the connection accepted into socket number `i`. -/
  peer : Nat → Peer
  /-- The macro `DCPOMATIC_HELLO`, without its terminating NUL. -/
  DCPOMATIC_HELLO : List Byte
  /-- The value `Config::instance()->server_port_base()`. -/
  server_port_base : Nat
  /-- The function `raw_convert<string>` at `size_t`. -/
  raw_convert_size : Nat → String
  /-- The function `raw_convert<string>` at `int`. -/
  raw_convert_int : Int → String
  /-- The call `doc.write_to_string ("UTF-8")`. -/
  write_to_string : XmlDocument → List Byte

/-! ## `Server::process` -/

/-- The constructor `std::string (const char*)`: the bytes before the first NUL.
There is `none` when the bytes hold no NUL: the constructor then reads past them. -/
def c_str : List Byte → Option (List Byte)
  | [] => none
  | b :: bs => if b = 0 then some [] else (c_str bs).map (fun s => b :: s)

/-- `Server::process (socket, after_read, after_encode)` on socket number `socket`:
the calls made and either the returned `int` or the exception thrown.  The result is
`none` when building `string s (buffer.get())` reads past the end of `buffer`. -/
def process (env : Env) (socket : Nat) : Option (List Event × Throws Int) :=
  let p := env.peer socket
  match p.read_uint32 with
  | .error e => some ([.read_uint32], .error e)
  | .ok length =>
  let t1 := [Event.read_uint32, Event.read length]
  match p.read length with
  | .error e => some (t1, .error e)
  | .ok buffer =>
  match c_str buffer with
  | none => none
  | some s =>
  let t2 := t1 ++ [Event.read_string s]
  match env.read_string s with
  | .error e => some (t2, .error e)
  | .ok xml =>
  match env.number_child_Version xml with
  | .error e => some (t2, .error e)
  | .ok version =>
  if version ≠ env.SERVER_LINK_VERSION then
    some (t2 ++ [.cerr "Mismatched server/client versions\n",
                 .log (.error "Mismatched server/client versions")], .ok (-1))
  else
  let t3 := t2 ++ [Event.player_video]
  match p.player_video with
  | .error e => some (t3, .error e)
  | .ok pvf =>
  let t4 := t3 ++ [Event.dcp_video]
  match env.dcp_video_index xml with
  | .error e => some (t4, .error e)
  | .ok index =>
  let t5 := t4 ++ [Event.encode_locally]
  match env.encode_locally xml pvf with
  | .error e => some (t5, .error e)
  | .ok encoded =>
  let send_failed := [Event.cerr ("Send failed; frame " ++ toString index ++ "\n"),
                      Event.log (.error ("Send failed; frame " ++ toString index))]
  let t6 := t5 ++ [Event.write_size encoded.length]
  match p.write_size with
  | .error e => some (t6 ++ send_failed, .error e)
  | .ok _ =>
  let t7 := t6 ++ [Event.write_data encoded]
  match p.write_data with
  | .error e => some (t7 ++ send_failed, .error e)
  | .ok _ => some (t7, .ok index)

/-! ## `Server::worker_thread`, from the dequeue to the end of the iteration -/

/-- What the catch block of `worker_thread` does with an exception. -/
def caught (what : String) : List Event :=
  [.cerr ("Error: " ++ what ++ "\n"), .log (.error ("Error: " ++ what))]

/-- The `EncodedLogEntry` built at lines 191-198. -/
def encoded_entry (env : Env) (p : Peer) (frame : Int) (ip : String) : LogEntry :=
  .encoded frame ip
    (env.seconds p.after_read - env.seconds p.start)
    (env.seconds p.after_encode - env.seconds p.after_read)
    (env.seconds p.end_inner - env.seconds p.after_encode)

/-- Lines 163-205 of `worker_thread` for the claimed socket: `frame` and `ip` start as
`-1` and empty, the try block runs `process` and then asks for the peer address, the
catch block logs, the socket is reset, and a log entry is written when `frame >= 0`. -/
def worker_thread_job (env : Env) (verbose : Bool) (socket : Nat) : Option (List Event) :=
  let p := env.peer socket
  match process env socket with
  | none => none
  | some (t, r) =>
    let (frame, ip, t1) : Int × String × List Event :=
      match r with
      | .error what => (-1, "", t ++ caught what)
      | .ok f =>
        match p.remote_endpoint with
        | .error what => (f, "", t ++ [Event.remote_endpoint] ++ caught what)
        | .ok address => (f, address, t ++ [Event.remote_endpoint])
    let t2 := t1 ++ [Event.reset socket]
    if frame ≥ 0 then
      let e := encoded_entry env p frame ip
      some (t2 ++ (if verbose then [Event.cout_entry e] else []) ++ [Event.log e])
    else
      some t2

/-! ## The queue, the workers and the acceptor -/

/-- Where one worker thread stands. -/
inductive Worker
  /-- About to take `_worker_mutex` and test the loop condition at line 150 (at the head
  of the outer loop, or woken from the wait). -/
  | idle
  /-- Blocked in `_empty_condition.wait (lock)`. -/
  | waiting
  /-- Past `lock.unlock ()` at line 161 with the claimed socket. -/
  | busy (socket : Nat)
  /-- Returned from `worker_thread` at line 155. -/
  | finished
deriving DecidableEq

/-- Where the thread that runs `_io_service` stands. -/
inductive Acceptor
  /-- An `async_accept` into the fresh socket is pending. -/
  | armed (socket : Nat)
  /-- In `handle_accept` with the accepted socket, about to take `_worker_mutex` and test
  the loop condition at line 306 (on entry, or woken from the wait). -/
  | handling (socket : Nat)
  /-- Blocked in `_full_condition.wait (lock)` holding the accepted socket. -/
  | waiting (socket : Nat)
  /-- No `async_accept` is pending and no handler is running. -/
  | stopped
deriving DecidableEq

/-- State of a `Server` after `run` has started its threads.  The fields `sockets`,
`trace`, `pushed` and `claimed` are history variables: they record what has happened
and are never read by the code. -/
structure Server where
  _verbose : Bool
  _terminate : Bool
  /-- The list `_queue`, front first; a socket is its number. -/
  _queue : List Nat
  /-- The list `_worker_threads`, one entry per thread. -/
  _worker_threads : List Worker
  acceptor : Acceptor
  /-- Number of `Socket` objects made by `start_accept` so far; the next one gets this number. -/
  sockets : Nat
  /-- Every call made so far, oldest first. -/
  trace : List Event
  /-- Every socket given to `_queue.push_back`, oldest first. -/
  pushed : List Nat
  /-- Every `(worker, socket)` taken by `_queue.front ()` / `_queue.pop_front ()`, oldest first. -/
  claimed : List (Nat × Nat)
deriving DecidableEq

/-- The call `_empty_condition.notify_all ()`: every worker blocked in the wait is woken. -/
def notify_empty (ws : List Worker) : List Worker :=
  ws.map (fun w => match w with | .waiting => .idle | w => w)

/-- The call `_full_condition.notify_all ()`: the acceptor is woken if it is blocked in the wait. -/
def notify_full : Acceptor → Acceptor
  | .waiting socket => .handling socket
  | a => a

/-- `Server::start_accept`: nothing when `_terminate`, else a new `Socket` and an
`async_accept` into it. -/
def start_accept (s : Server) : Server :=
  if s._terminate then { s with acceptor := .stopped }
  else { s with acceptor := .armed s.sockets, sockets := s.sockets + 1 }

/-- `Server::handle_accept`, lines 299-301: the completion handler is entered with the
socket and the error code; on an error it returns at once. -/
def handle_accept (s : Server) (socket : Nat) (error : Bool) : Server :=
  if error then { s with acceptor := .stopped } else { s with acceptor := .handling socket }

/-- `Server::handle_accept`, lines 303-313, with `_worker_mutex` held: one test of the
loop condition, then either the wait or the push, the notification and `start_accept`. -/
def handle_accept_locked (s : Server) (socket : Nat) : Server :=
  if s._queue.length ≥ s._worker_threads.length * 2 ∧ s._terminate = false then
    { s with acceptor := .waiting socket }
  else
    start_accept { s with _queue := s._queue ++ [socket],
                          pushed := s.pushed ++ [socket],
                          _worker_threads := notify_empty s._worker_threads }

/-- `Server::worker_thread`, lines 149-161, with `_worker_mutex` held: one test of the
loop condition, then the wait, the return, or the dequeue. -/
def worker_thread_locked (s : Server) (i : Nat) : Server :=
  match s._terminate, s._queue with
  | false, [] => { s with _worker_threads := s._worker_threads.set i .waiting }
  | true, _ => { s with _worker_threads := s._worker_threads.set i .finished }
  | false, socket :: rest =>
    { s with _queue := rest,
             claimed := s.claimed ++ [(i, socket)],
             _worker_threads := s._worker_threads.set i (.busy socket) }

/-- `Server::worker_thread`, lines 163-208: the job on the claimed socket, then
`_full_condition.notify_all ()` and back to the head of the loop. -/
def worker_thread_unlocked (env : Env) (s : Server) (i socket : Nat) : Option Server :=
  match worker_thread_job env s._verbose socket with
  | none => none
  | some t =>
    some { s with trace := s.trace ++ t,
                  acceptor := notify_full s.acceptor,
                  _worker_threads := s._worker_threads.set i .idle }

/-- `Server::~Server`, lines 79-84. -/
def terminate (s : Server) : Server :=
  { s with _terminate := true,
           _worker_threads := notify_empty s._worker_threads,
           acceptor := notify_full s.acceptor }

/-- `Server::run (num_threads)` up to the call of `_io_service.run ()`. -/
def run (verbose : Bool) (num_threads : Int) : Server :=
  start_accept
    { _verbose := verbose
      _terminate := false
      _queue := []
      _worker_threads := List.replicate num_threads.toNat .idle
      acceptor := .stopped
      sockets := 0
      trace := [Event.log (.general ("Server starting with " ++ toString num_threads ++ " threads"))]
        ++ (if verbose then
              [Event.cout ("DCP-o-matic server starting with " ++ toString num_threads ++ " threads.\n")]
            else [])
      pushed := []
      claimed := [] }

/-- What can happen next. -/
inductive Action
  /-- The pending `async_accept` completes and `handle_accept` is entered, with an error or without. -/
  | accept (error : Bool)
  /-- The acceptor takes `_worker_mutex` and runs `handle_accept` from the loop test on. -/
  | acceptor
  /-- Worker `i` runs its next stretch: the locked head of the loop, or the job. -/
  | worker (i : Nat)
  /-- The destructor sets `_terminate` and notifies both conditions. -/
  | terminate
  /-- Worker `i` wakes from `_empty_condition.wait` without a notification. -/
  | wake_worker (i : Nat)
  /-- The acceptor wakes from `_full_condition.wait` without a notification. -/
  | wake_acceptor
deriving DecidableEq

/-- One action; `none` when the action cannot happen in this state (or when the job
runs into the out-of-bounds read of `process`). -/
def step (env : Env) (s : Server) : Action → Option Server
  | .accept error =>
    match s.acceptor with
    | .armed socket => some (handle_accept s socket error)
    | _ => none
  | .acceptor =>
    match s.acceptor with
    | .handling socket => some (handle_accept_locked s socket)
    | _ => none
  | .worker i =>
    match s._worker_threads[i]? with
    | some .idle => some (worker_thread_locked s i)
    | some (.busy socket) => worker_thread_unlocked env s i socket
    | _ => none
  | .terminate => if s._terminate then none else some (terminate s)
  | .wake_worker i =>
    match s._worker_threads[i]? with
    | some .waiting => some { s with _worker_threads := s._worker_threads.set i .idle }
    | _ => none
  | .wake_acceptor =>
    match s.acceptor with
    | .waiting socket => some { s with acceptor := .handling socket }
    | _ => none

/-- A sequence of actions, `none` as soon as one of them cannot happen. -/
def exec (env : Env) : Server → List Action → Option Server
  | s, [] => some s
  | s, a :: rest =>
    match step env s a with
    | none => none
    | some s1 => exec env s1 rest

/-! ## The discovery responder -/

/-- Script of one datagram: what arrives and what the reply attempt meets. -/
structure Reception where
  /-- The bytes of the datagram. -/
  data : List Byte
  /-- The address it came from. -/
  sender : String
  /-- The exception thrown while the reply document is built (lines 260-264), if any. -/
  xml_error : Option String
  /-- Outcome of `socket->connect (...)`. -/
  connect : Throws Unit
  /-- Outcome of `socket->write (xml.length() + 1)`. -/
  write_size : Throws Unit
  /-- Outcome of `socket->write ((uint8_t *) xml.c_str(), xml.length() + 1)`. -/
  write_data : Throws Unit

/-- The members of `_broadcast` and the state of its thread. -/
structure Broadcast where
  /-- The array `_broadcast.buffer`; its length is `sizeof (_broadcast.buffer)`. -/
  buffer : List Byte
  send_endpoint : String
  /-- An `async_receive_from` is pending and `_broadcast.io_service.run ()` has not returned. -/
  listening : Bool
  /-- The exception kept by `store_current ()`. -/
  stored : Option String
deriving DecidableEq

/-- Completion of `async_receive_from`: the datagram overwrites the front of the
buffer (cut to the size of the buffer), the rest of the buffer keeps what it held, and
`send_endpoint` is the sender. -/
def receive_from (b : Broadcast) (r : Reception) : Broadcast :=
  { b with buffer := (r.data ++ b.buffer.drop r.data.length).take b.buffer.length,
           send_endpoint := r.sender }

/-- The document built at lines 260-263. -/
def ServerAvailable (env : Env) (workers : Nat) : XmlDocument :=
  { root := "ServerAvailable",
    children := [("Threads", env.raw_convert_size workers),
                 ("Version", env.raw_convert_int env.SERVER_LINK_VERSION)] }

/-- Line 256: the last byte of the buffer is set to NUL. -/
def terminated (buffer : List Byte) : List Byte :=
  buffer.set (buffer.length - 1) 0

/-- Line 258, `strcmp (_broadcast.buffer, DCPOMATIC_HELLO) == 0`: the two agree as
NUL-terminated strings. -/
def is_hello (env : Env) (buffer : List Byte) : Bool :=
  c_str buffer = c_str (env.DCPOMATIC_HELLO ++ [0])

/-- `Server::broadcast_received` with the datagram already in the buffer; `workers` is
`_worker_threads.size ()`.  An exception that leaves the handler leaves
`_broadcast.io_service.run ()` too and reaches the handler of `broadcast_thread`
(`store_current ()`), after which the thread has ended. -/
def broadcast_received (env : Env) (verbose : Bool) (workers : Nat) (b : Broadcast)
    (r : Reception) : Broadcast × List Event :=
  let buffer := terminated b.buffer
  if is_hello env buffer then
    match r.xml_error with
    | some what =>
      ({ b with buffer := buffer, listening := false, stored := some what },
       [Event.store_current what])
    | none =>
      let xml := env.write_to_string (ServerAvailable env workers)
      let t0 := if verbose then
          [Event.cout ("Offering services to master " ++ b.send_endpoint ++ "\n")] else []
      let t1 := t0 ++ [Event.connect b.send_endpoint (env.server_port_base + 1)]
      let t :=
        match r.connect with
        | .error _ => t1
        | .ok _ =>
          let t2 := t1 ++ [Event.write_size (xml.length + 1)]
          match r.write_size with
          | .error _ => t2
          | .ok _ => t2 ++ [Event.write_data (xml ++ [0])]
      ({ b with buffer := buffer, listening := true }, t)
  else
    ({ b with buffer := buffer, listening := true }, [])

/-- One datagram: it is received only while the responder listens. -/
def datagram (env : Env) (verbose : Bool) (workers : Nat) (b : Broadcast) (r : Reception) :
    Broadcast × List Event :=
  if b.listening then broadcast_received env verbose workers (receive_from b r) r
  else (b, [])

/-- `Server::broadcast_thread`: the buffer starts with whatever the memory holds, the
first receive is armed, and the datagrams are handled one after the other.  The result
is the final state and, per datagram, the calls it caused. -/
def responder (env : Env) (verbose : Bool) (workers : Nat) :
    Broadcast → List Reception → Broadcast × List (List Event)
  | b, [] => (b, [])
  | b, r :: rest =>
    let (b1, t) := datagram env verbose workers b r
    let (b2, ts) := responder env verbose workers b1 rest
    (b2, t :: ts)

/-- `Server::broadcast_thread` up to `_broadcast.io_service.run ()`: `memory` is the
content of the uninitialised buffer. -/
def broadcast_thread (memory : List Byte) : Broadcast :=
  { buffer := memory, send_endpoint := "", listening := true, stored := none }

/-! ## Vocabulary of the properties -/

/-- The socket the acceptor thread currently owns, if any. -/
def Acceptor.socket : Acceptor → Option Nat
  | .armed socket => some socket
  | .handling socket => some socket
  | .waiting socket => some socket
  | .stopped => none

/-- The socket that `handle_accept` holds: accepted, and not yet in `_queue`. -/
def Acceptor.accepted : Acceptor → Option Nat
  | .handling socket => some socket
  | .waiting socket => some socket
  | _ => none

/-- How far the queue may exceed twice the number of workers: by one once
`_terminate` is set and the acceptor has nothing pending any more. -/
def queue_slack (s : Server) : Nat :=
  if s._terminate = true ∧ s.acceptor = .stopped then 1 else 0

/-- An entry of `TYPE_ERROR` is written to the log. -/
def Event.is_error : Event → Bool
  | .log (.error _) => true
  | _ => false

/-- An `EncodedLogEntry` (a timing record) is written to the log. -/
def Event.is_timing : Event → Bool
  | .log (.encoded _ _ _ _ _) => true
  | _ => false

/-- The payload is read from the socket. -/
def Event.is_payload : Event → Bool
  | .player_video => true
  | _ => false

/-- The frame codec is invoked. -/
def Event.is_codec : Event → Bool
  | .encode_locally => true
  | _ => false

/-- Something is written on a socket. -/
def Event.is_write : Event → Bool
  | .write_size _ => true
  | .write_data _ => true
  | _ => false

/-- Something is put on record: a log entry, text on `cerr`, or a stored exception. -/
def Event.is_record : Event → Bool
  | .log _ => true
  | .cerr _ => true
  | .store_current _ => true
  | _ => false

/-- The descriptor of the job on `socket` was read and parsed into `xml`, and its
`Version` is `version`. -/
def Parsed (env : Env) (socket : Nat) (xml : env.Document) (version : Int) : Prop :=
  ∃ length buffer s,
    (env.peer socket).read_uint32 = .ok length ∧
    (env.peer socket).read length = .ok buffer ∧
    c_str buffer = some s ∧
    env.read_string s = .ok xml ∧
    env.number_child_Version xml = .ok version

/-- The job on `socket` has the right version, its payload `pvf` was read, its frame
index is `index`, and the codec produced `encoded`. -/
def Encoded (env : Env) (socket : Nat) (index : Int) (encoded : List Byte) : Prop :=
  ∃ xml pvf,
    Parsed env socket xml env.SERVER_LINK_VERSION ∧
    (env.peer socket).player_video = .ok pvf ∧
    env.dcp_video_index xml = .ok index ∧
    env.encode_locally xml pvf = .ok encoded

/-- The job on `socket`, for frame `index`, was fully processed without any error:
descriptor and payload read, frame encoded, response sent. -/
def Completed (env : Env) (socket : Nat) (index : Int) : Prop :=
  ∃ encoded,
    Encoded env socket index encoded ∧
    (env.peer socket).write_size = .ok () ∧
    (env.peer socket).write_data = .ok ()

/-- The job on `socket` fails with the exception `what` in one of the three ways of
a per-job error: a transport error while the request is read, a codec failure, a
transport error while the response is sent. -/
inductive JobFailure (env : Env) (socket : Nat) (what : String) : Prop
  /-- The length of the descriptor cannot be read. -/
  | read_length :
      (env.peer socket).read_uint32 = .error what → JobFailure env socket what
  /-- The descriptor cannot be read. -/
  | read_descriptor (length : Nat) :
      (env.peer socket).read_uint32 = .ok length →
      (env.peer socket).read length = .error what → JobFailure env socket what
  /-- The payload cannot be read. -/
  | read_payload (xml : env.Document) :
      Parsed env socket xml env.SERVER_LINK_VERSION →
      (env.peer socket).player_video = .error what → JobFailure env socket what
  /-- The codec fails. -/
  | codec (xml : env.Document) (pvf : List Byte) (index : Int) :
      Parsed env socket xml env.SERVER_LINK_VERSION →
      (env.peer socket).player_video = .ok pvf →
      env.dcp_video_index xml = .ok index →
      env.encode_locally xml pvf = .error what → JobFailure env socket what
  /-- The size of the response cannot be written. -/
  | send_size (index : Int) (encoded : List Byte) :
      Encoded env socket index encoded →
      (env.peer socket).write_size = .error what → JobFailure env socket what
  /-- The bytes of the response cannot be written. -/
  | send_data (index : Int) (encoded : List Byte) :
      Encoded env socket index encoded →
      (env.peer socket).write_size = .ok () →
      (env.peer socket).write_data = .error what → JobFailure env socket what

/-- The queue agrees with its history: socket numbers are fresh, no socket was pushed
twice, and the sockets pushed so far are the claimed ones, in the order of their
claims, followed by the queue. -/
def Handover (s : Server) : Prop :=
  (∀ x ∈ s.pushed, x < s.sockets) ∧
  (∀ socket, s.acceptor.socket = some socket → socket < s.sockets ∧ socket ∉ s.pushed) ∧
  s.pushed.Nodup ∧
  s.pushed = s.claimed.map Prod.snd ++ s._queue

/-! ## Bytes on the wire and port numbers -/

/-- Modelled from the spec: the bytes that `Socket::write (n)` puts on the connection
for an integer `n`, as a header of `width` bytes; `Socket` is declared in
dcpomatic_socket.h, which is not among the sources.  Section 6 of the spec gives the
widths: "Job response: 8-byte length prefix + raw encoded bytes" and "Discovery
reply: [...] payload = 4-byte length prefix + structured document".  The bytes are
taken most significant first. -/
def length_header : Nat → Nat → List Byte
  | 0, _ => []
  | width + 1, n => length_header width (n / 256) ++ [n % 256]

/-- The number that a header holds, most significant byte first. -/
def header_value (header : List Byte) : Nat :=
  header.foldl (fun value byte => value * 256 + byte) 0

/-- Modelled from the spec: the bytes that a list of calls puts on one connection when
`Socket::write (n)` writes its integer in `width` bytes (see `length_header`); the
bytes of `socket->write (data, size)` go out as they are. -/
def wire (width : Nat) : List Event → List Byte
  | [] => []
  | .write_size n :: rest => length_header width n ++ wire width rest
  | .write_data data :: rest => data ++ wire width rest
  | _ :: rest => wire width rest

/-- The parameter `unsigned short port_num` of the constructors of
`boost::asio::ip::tcp::endpoint` and `boost::asio::ip::udp::endpoint`: the `int` that
the server passes is narrowed to 16 bits. -/
def port_num (port : Nat) : Nat :=
  port % 65536

/-- `Server::Server`, line 72: the port of the endpoint that `_acceptor` listens on. -/
def acceptor_port (env : Env) : Nat :=
  port_num env.server_port_base

/-- `Server::broadcast_thread`, lines 234-238: the port of `listen_endpoint`, to which
the UDP socket is bound. -/
def listen_port (env : Env) : Nat :=
  port_num (env.server_port_base + 1)

/-- The ports of the endpoints that the calls of `socket->connect` in a list of calls
go to. -/
def connect_ports : List Event → List Nat
  | [] => []
  | .connect _ port :: rest => port_num port :: connect_ports rest
  | _ :: rest => connect_ports rest

/-! ## `ActiveCaptions` (`src/lib/active_captions.cc`) -/

/-- Modelled from the spec: `DCPTime::max ()` of dcpomatic_time.h, which is not among
the sources: the largest time there is; times are 64-bit counts. -/
def DCPTime.max : Int :=
  2 ^ 63 - 1

/-- Modelled from the spec: `DCPTimePeriod` of dcpomatic_time.h, which is not among the
sources: the time from `from` up to `to`.  Times are taken in the integers; no
arithmetic on them is taken to overflow. -/
structure DCPTimePeriod where
  from_ : Int
  to_ : Int
deriving DecidableEq, Repr

/-- Modelled from the spec: `DCPTimePeriod::duration ()`, the length `to - from`. -/
def DCPTimePeriod.duration (p : DCPTimePeriod) : Int :=
  p.to_ - p.from_

/-- Modelled from the spec: `DCPTimePeriod::overlap (other)`, the part that the two
periods have in common, from the later `from` to the earlier `to`, and nothing when
that part is empty. -/
def DCPTimePeriod.overlap (p other : DCPTimePeriod) : Option DCPTimePeriod :=
  let max_from := max p.from_ other.from_
  let min_to := min p.to_ other.to_
  if max_from ≥ min_to then none else some ⟨max_from, min_to⟩

/-- What `weak_ptr<const CaptionContent>::lock ()` gives when the content is alive, as
far as `get_burnt` looks at it. -/
structure CaptionContent where
  use : Bool
  burn : Bool
deriving DecidableEq, Repr

/-- The class `ActiveCaptions::Period`: some captions `subs` of type `α` (a
`PlayerCaption`), their `from` time and, once known, their `to` time. -/
structure Period (α : Type) where
  subs : α
  from_ : Int
  to_ : Option Int
deriving DecidableEq, Repr

/-- The type `ActiveCaptions::Map`, a `std::map` from `weak_ptr<const CaptionContent>`
to `list<Period>`: its entries in the order of iteration.  A key is the number of the
object the pointer was made from; the map keeps its keys apart and ascending. -/
abbrev Map (α : Type) := List (Nat × List (Period α))

/-- The keys of a `std::map` are apart and ascending. -/
def Map.ordered {α : Type} (m : Map α) : Prop :=
  List.Pairwise (fun a b => a < b) (m.map Prod.fst)

/-- The statement `m[k] = v` on a `std::map`: the value at `k` is replaced, or `k` is
put in at its place in the order of the keys. -/
def Map.assign {α : Type} : Map α → Nat → List (Period α) → Map α
  | [], k, v => [(k, v)]
  | (k1, v1) :: rest, k, v =>
    if k < k1 then (k, v) :: (k1, v1) :: rest
    else if k = k1 then (k, v) :: rest
    else (k1, v1) :: Map.assign rest k v

/-- The condition of line 57 for a stored period `j`: `test` is `j` with `DCPTime::max ()`
for a missing `to`, and the division is the one of 64-bit integers (towards zero). -/
def burnt_test {α : Type} (period : DCPTimePeriod) (j : Period α) : Bool :=
  let test : DCPTimePeriod := ⟨j.from_, j.to_.getD DCPTime.max⟩
  match period.overlap test with
  | some overlap => decide (overlap.duration > period.duration.tdiv 2)
  | none => false

/-- `ActiveCaptions::get_burnt (period, always_burn_captions)` on the map `_data`;
`lock` says which contents are alive. -/
def get_burnt {α : Type} (lock : Nat → Option CaptionContent) (_data : Map α)
    (period : DCPTimePeriod) (always_burn_captions : Bool) : List α :=
  _data.foldl
    (fun ps i =>
      match lock i.1 with
      | none => ps
      | some caption =>
        if !caption.use || (!always_burn_captions && !caption.burn) then ps
        else i.2.foldl (fun ps j => if burnt_test period j then ps ++ [j.subs] else ps) ps)
    []

/-- The condition of line 76 for a stored period `j`. -/
def kept_test {α : Type} (time : Int) (j : Period α) : Bool :=
  match j.to_ with
  | none => true
  | some t => decide (t ≥ time)

/-- `ActiveCaptions::clear_before (time)`: the new value of `_data`. -/
def clear_before {α : Type} (_data : Map α) (time : Int) : Map α :=
  _data.foldl
    (fun updated i =>
      let as := i.2.foldl (fun as j => if kept_test time j then as ++ [j] else as) []
      if !as.isEmpty then updated.assign i.1 as else updated)
    []

/-- What C19 says of a stored period `j` of the content `content`: the content is
alive, is used, and burns or captions are always burnt, and `j`, run to the maximum
time when it has no end, shares with `period` a stretch that is longer than half of the
duration of `period`, the half taken as an integer. -/
def wanted_burnt {α : Type} (lock : Nat → Option CaptionContent) (period : DCPTimePeriod)
    (always_burn_captions : Bool) (content : Nat) (j : Period α) : Bool :=
  (match lock content with
   | some caption => caption.use && (caption.burn || always_burn_captions)
   | none => false) &&
  decide (max period.from_ j.from_ < min period.to_ (j.to_.getD DCPTime.max) ∧
    min period.to_ (j.to_.getD DCPTime.max) - max period.from_ j.from_
      > (period.to_ - period.from_).tdiv 2)

/-- What C20 says of a stored period `j`: it has no end time, or an end time that is
not earlier than `time`. -/
def wanted_kept {α : Type} (time : Int) (j : Period α) : Bool :=
  j.to_.isNone || j.to_.any (fun t => decide (time ≤ t))

/-- A `PlayerCaption` as far as `add_to` looks at it: the list `text` of its
`TextCaption`s, and everything else of it. -/
structure PlayerCaption (τ ρ : Type) where
  text : List τ
  other : ρ
deriving DecidableEq, Repr

/-- The call `m.find (k)` on a `std::map`: the value stored at `k`, or nothing for
`m.end ()`. -/
def Map.find {α : Type} (m : Map α) (k : Nat) : Option (List (Period α)) :=
  List.lookup k m

/-- The list that the expression `m[k]` refers to when `k` is in the map. -/
def Map.at {α : Type} (m : Map α) (k : Nat) : List (Period α) :=
  (m.find k).getD []

/-- `ActiveCaptions::add_from (content, ps, from)`: the new value of `_data`. -/
def add_from {α : Type} (_data : Map α) (content : Nat) (ps : α) (from_ : Int) : Map α :=
  let _data1 := if (_data.find content).isNone then _data.assign content [] else _data
  _data1.assign content (_data1.at content ++ [⟨ps, from_, none⟩])

/-- `ActiveCaptions::add_to (content, to)`: the new value of `_data` and the pair that is
returned.  `set_out to` stands for `TextCaption::set_out (dcp::Time (to.seconds (), 1000))`.
There is no result when the assertion of line 104 fails, nor when the list at `content`
is empty, where `back ()` has no element to refer to. -/
def add_to {τ ρ : Type} (set_out : Int → τ → τ) (_data : Map (PlayerCaption τ ρ))
    (content : Nat) (to_ : Int) :
    Option (Map (PlayerCaption τ ρ) × (PlayerCaption τ ρ × Int)) :=
  match _data.find content with
  | none => none
  | some periods =>
    match periods.getLast? with
    | none => none
    | some back =>
      let back1 : Period (PlayerCaption τ ρ) := { back with to_ := some to_ }
      let back2 : Period (PlayerCaption τ ρ) :=
        { back1 with subs := { back1.subs with text := back1.subs.text.map (set_out to_) } }
      some (_data.assign content (periods.dropLast ++ [back2]), (back2.subs, back2.from_))

/-- `ActiveCaptions::have (content)`. -/
def have_ {α : Type} (_data : Map α) (content : Nat) : Bool :=
  match _data.find content with
  | none => false
  | some periods => !periods.isEmpty

/-- `ActiveCaptions::clear ()`: the new value of `_data`. -/
def clear {α : Type} : Map α :=
  []

/-! ## `SubtitleContent` (`src/lib/subtitle_content.cc`) -/

/-- The value of a `double`: a number (the two zeros are the number 0), an infinity, or
a NaN. -/
inductive Double
  | finite (value : ℚ)
  | infinite (negative : Bool)
  | nan
deriving DecidableEq, Repr

/-- The operator `!=` on two `double`s: a NaN is unequal to every value, itself
included; any other two values are unequal when they are not the same value. -/
def Double.ne : Double → Double → Bool
  | .nan, _ => true
  | _, .nan => true
  | a, b => decide (a ≠ b)

/-- A `SubtitleContent` as far as the join constructor and `identifier` look at it.  A
font is a value of type `φ`; the offsets and scales are `double`s.
`content_identifier` is what `Content::identifier ()` of the base class returns. -/
structure SubtitleContent (φ : Type) where
  content_identifier : String
  use_subtitles : Bool
  burn_subtitles : Bool
  subtitle_x_offset : Double
  subtitle_y_offset : Double
  subtitle_x_scale : Double
  subtitle_y_scale : Double
  subtitle_language : String
  fonts : List φ

/-- Why the join constructor threw `JoinError`: one constructor per `throw` of lines
121-155, in the order of the code. -/
inductive JoinError
  /-- The text is "Content to be joined must have the same 'use subtitles' setting." -/
  | use_subtitles
  /-- The text is "Content to be joined must have the same 'burn subtitles' setting." -/
  | burn_subtitles
  /-- The text is "Content to be joined must have the same subtitle X offset." -/
  | subtitle_x_offset
  /-- The text is "Content to be joined must have the same subtitle Y offset." -/
  | subtitle_y_offset
  /-- The text is "Content to be joined must have the same subtitle X scale." -/
  | subtitle_x_scale
  /-- The text is "Content to be joined must have the same subtitle Y scale." -/
  | subtitle_y_scale
  /-- The text is "Content to be joined must use the same fonts.", for the sizes or for a pair. -/
  | fonts
deriving DecidableEq, Repr

/-- What leaves the join constructor in place of an object: an exception of the
constructor `Content (film, c)` of the base class, with its text, or a `JoinError` of
the body. -/
inductive Thrown
  | base (what : String)
  | join_error (why : JoinError)
deriving DecidableEq, Repr

/-- One turn of the loop of lines 117-157 on the element `sc`: the `JoinError` it throws,
if any.  The flags are compared as `bool`s, the offsets and scales as `double`s, and
`font_ne` is `operator!=` of `Font`. -/
def join_check {φ : Type} (font_ne : φ → φ → Bool) (ref sc : SubtitleContent φ) :
    Option JoinError :=
  if sc.use_subtitles != ref.use_subtitles then some .use_subtitles
  else if sc.burn_subtitles != ref.burn_subtitles then some .burn_subtitles
  else if (sc.subtitle_x_offset).ne ref.subtitle_x_offset then some .subtitle_x_offset
  else if (sc.subtitle_y_offset).ne ref.subtitle_y_offset then some .subtitle_y_offset
  else if (sc.subtitle_x_scale).ne ref.subtitle_x_scale then some .subtitle_x_scale
  else if (sc.subtitle_y_scale).ne ref.subtitle_y_scale then some .subtitle_y_scale
  else if sc.fonts.length != ref.fonts.length then some .fonts
  else if (ref.fonts.zip sc.fonts).any (fun jk => font_ne jk.1 jk.2) then some .fonts
  else none

/-- The join constructor `SubtitleContent (film, c)` on a vector `c` of subtitle
contents: the exception it throws, or the object it builds.  `base` is the outcome of
the constructor `Content (film, c)` of the base class, which runs first: an exception,
or the identifier of the `Content` it has built.  There is no result for an empty `c`,
where `c[0]` refers to nothing. -/
def SubtitleContent.join {φ : Type} (font_ne : φ → φ → Bool) (base : Throws String)
    (c : List (SubtitleContent φ)) : Option (Except Thrown (SubtitleContent φ)) :=
  match c with
  | [] => none
  | ref :: _ =>
    match base with
    | .error what => some (.error (.base what))
    | .ok content_identifier =>
      match c.findSome? (join_check font_ne ref) with
      | some why => some (.error (.join_error why))
      | none =>
        some (.ok
          { content_identifier := content_identifier
            use_subtitles := ref.use_subtitles
            burn_subtitles := ref.burn_subtitles
            subtitle_x_offset := ref.subtitle_x_offset
            subtitle_y_offset := ref.subtitle_y_offset
            subtitle_x_scale := ref.subtitle_x_scale
            subtitle_y_scale := ref.subtitle_y_scale
            subtitle_language := ref.subtitle_language
            fonts := ref.fonts })

/-- `SubtitleContent::identifier ()`.  `raw_convert` is `raw_convert<string>` on a
`double`, and `file f` is `f->file ()`, the file of the font when it has one. -/
def SubtitleContent.identifier {φ : Type} (raw_convert : Double → String)
    (file : φ → Option String) (c : SubtitleContent φ) : String :=
  c.fonts.foldl (fun s f => s ++ (file f).getD "Default")
    (c.content_identifier
      ++ "_" ++ raw_convert c.subtitle_x_scale
      ++ "_" ++ raw_convert c.subtitle_y_scale
      ++ "_" ++ raw_convert c.subtitle_x_offset
      ++ "_" ++ raw_convert c.subtitle_y_offset)

/-- What C24 says of an element `sc` of the list and the first element `ref`: they
differ in a flag, an offset, a scale, the number of fonts, or two fonts at the same
place are unequal. -/
def differs {φ : Type} (font_ne : φ → φ → Bool) (ref sc : SubtitleContent φ) : Prop :=
  sc.use_subtitles ≠ ref.use_subtitles ∨ sc.burn_subtitles ≠ ref.burn_subtitles ∨
  sc.subtitle_x_offset ≠ ref.subtitle_x_offset ∨ sc.subtitle_y_offset ≠ ref.subtitle_y_offset ∨
  sc.subtitle_x_scale ≠ ref.subtitle_x_scale ∨ sc.subtitle_y_scale ≠ ref.subtitle_y_scale ∨
  sc.fonts.length ≠ ref.fonts.length ∨
  ∃ (i : Nat) (f g : φ), ref.fonts[i]? = some f ∧ sc.fonts[i]? = some g ∧ font_ne f g = true

/-- What the comparisons of lines 120-155 find for an element `sc` of the list and the
first element `ref`: one of the operators `!=` gives true, on a flag, on an offset or a
scale as `double`s, on the numbers of fonts, or on two fonts at the same place. -/
def unequal {φ : Type} (font_ne : φ → φ → Bool) (ref sc : SubtitleContent φ) : Prop :=
  sc.use_subtitles ≠ ref.use_subtitles ∨ sc.burn_subtitles ≠ ref.burn_subtitles ∨
  (sc.subtitle_x_offset).ne ref.subtitle_x_offset = true ∨
  (sc.subtitle_y_offset).ne ref.subtitle_y_offset = true ∨
  (sc.subtitle_x_scale).ne ref.subtitle_x_scale = true ∨
  (sc.subtitle_y_scale).ne ref.subtitle_y_scale = true ∨
  sc.fonts.length ≠ ref.fonts.length ∨
  ∃ (i : Nat) (f g : φ), ref.fonts[i]? = some f ∧ sc.fonts[i]? = some g ∧ font_ne f g = true

/-- None of the offsets and scales of the content is a NaN. -/
def SubtitleContent.numbers {φ : Type} (sc : SubtitleContent φ) : Prop :=
  sc.subtitle_x_offset ≠ .nan ∧ sc.subtitle_y_offset ≠ .nan ∧
  sc.subtitle_x_scale ≠ .nan ∧ sc.subtitle_y_scale ≠ .nan

/-! ## Sample scripts, to run the definitions on -/

namespace Sample

/-- A toy descriptor format: two bytes, the version and the frame index plus ten. -/
def read_string : List Byte → Throws (Int × Int)
  | [version, index] => .ok ((version : Int), (index : Int) - 10)
  | _ => .error "parse error"

/-- A client that sends a descriptor for frame `index - 10` with version `version`
and a payload of three bytes, and reads the whole response. -/
def client (version index : Byte) : Peer :=
  { read_uint32 := .ok 3
    read := fun _ => .ok [version, index, 0]
    player_video := .ok [1, 2, 3]
    write_size := .ok ()
    write_data := .ok ()
    remote_endpoint := .ok "192.168.0.2"
    start := ⟨100, 0⟩
    after_read := ⟨100, 250000⟩
    after_encode := ⟨102, 0⟩
    end_outer := ⟨102, 500000⟩
    end_inner := ⟨102, 500000⟩ }

/-- Socket 0: frame 17.  Socket 1: wrong version, and the peer is gone when its address
is asked for.  Socket 2: frame -5.  Socket 3: frame 9, the response cannot be written.
Socket 5: frame 17, from another address.  Every other socket: frame 17. -/
def peers : Nat → Peer
  | 1 => { client 1 27 with remote_endpoint := .error "remote_endpoint: Transport endpoint is not connected" }
  | 2 => client 2 5
  | 3 => { client 2 19 with write_data := .error "error during async_write" }
  | 5 => { client 2 27 with remote_endpoint := .ok "192.168.0.3" }
  | _ => client 2 27

/-- A small environment: protocol version 2, a codec that reverses the payload, base
port 6192, the token `HELLO`, and a serialiser that keeps the text of the children. -/
def env : Env :=
  { Document := Int × Int
    SERVER_LINK_VERSION := 2
    read_string := read_string
    number_child_Version := fun xml => .ok xml.1
    dcp_video_index := fun xml => .ok xml.2
    encode_locally := fun _ pvf => .ok pvf.reverse
    seconds := fun t => (t.tv_sec : ℚ) + (t.tv_usec : ℚ) / 1000000
    peer := peers
    DCPOMATIC_HELLO := [72, 69, 76, 76, 79]
    server_port_base := 6192
    raw_convert_size := fun n => toString n
    raw_convert_int := fun n => toString n
    write_to_string := fun doc =>
      doc.children.foldr (fun c bytes => c.2.toList.map Char.toNat ++ bytes) [] }

/-- A datagram from `sender` whose reply meets no error. -/
def hello (data : List Byte) (sender : String) : Reception :=
  { data := data, sender := sender, xml_error := none,
    connect := .ok (), write_size := .ok (), write_data := .ok () }

/-- The token with its terminating NUL, from 192.168.0.2; the reply meets no error. -/
def token : Reception :=
  hello (env.DCPOMATIC_HELLO ++ [0]) "192.168.0.2"

/-- The token, from 192.168.0.2; the reply connection is refused. -/
def refused : Reception :=
  { token with connect := .error "connect: Connection refused" }

/-- The token, from 192.168.0.2; the reply document cannot be built. -/
def broken : Reception :=
  { token with xml_error := some "std::bad_alloc" }

/-- A buffer of eight bytes of leftover memory, and the first receive armed. -/
def listening : Broadcast := broadcast_thread [170, 170, 170, 170, 170, 170, 170, 170]

/-- The state that `acts` lead to from `run (num_threads)`; the start state when they
cannot all happen. -/
def reach (num_threads : Int) (acts : List Action) : Server :=
  (exec env (run false num_threads) acts).getD (run false num_threads)

/-- Four connections are accepted and enqueued one after the other. -/
def fill : List Action :=
  [.accept false, .acceptor, .accept false, .acceptor,
   .accept false, .acceptor, .accept false, .acceptor]

/-- One connection is enqueued and claimed by worker 0, two more are enqueued, a fourth
is accepted and made to wait by `handle_accept`, the shutdown flag is set, and the
acceptor runs again. -/
def shutdown_while_full : List Action :=
  [.accept false, .acceptor, .worker 0, .accept false, .acceptor, .accept false, .acceptor,
   .accept false, .acceptor, .terminate, .acceptor]

/-- After `fill`: the two workers claim sockets 0 and 1, run those jobs, and claim
sockets 2 and 3. -/
def busy : List Action :=
  fill ++ [.worker 0, .worker 1, .worker 0, .worker 1, .worker 0, .worker 1]

/-- After `fill`: worker 0 claims and runs the jobs on sockets 0, 1 and 2 and claims
socket 3 (frame 9, whose response cannot be written); then a fifth connection
(socket 4, frame 17) is accepted and enqueued. -/
def frame_nine : List Action :=
  fill ++ [.worker 0, .worker 0, .worker 0, .worker 0, .worker 0, .worker 0, .worker 0,
           .accept false, .acceptor]

/-- After `fill`: worker 0 claims socket 0, and the shutdown flag is set. -/
def shutdown : List Action :=
  fill ++ [.worker 0, .terminate]

/-- The sample environment with the last port number as its base port. -/
def last_port : Env :=
  { env with server_port_base := 65535 }

/-- Captions are numbers here.  Content 1 is used and burns, content 2 is used and does
not burn, content 3 is not used, content 4 is gone. -/
def lock : Nat → Option CaptionContent
  | 1 => some { use := true, burn := true }
  | 2 => some { use := true, burn := false }
  | 3 => some { use := false, burn := true }
  | _ => none

/-- Stored periods of four contents: content 1 has the captions 10 (from 0 to 100), 11
(from 40, without end) and 12 (from 0 to 30); content 2 has 20 (from 0 to 100);
content 3 has 30 (from 0 to 100); content 4 has 40 (from 0 to 100). -/
def data : Map Nat :=
  [(1, [⟨10, 0, some 100⟩, ⟨11, 40, none⟩, ⟨12, 0, some 30⟩]),
   (2, [⟨20, 0, some 100⟩]),
   (3, [⟨30, 0, some 100⟩]),
   (4, [⟨40, 0, some 100⟩])]

/-- A text caption here is its number and its out time; `set_out` puts the time in. -/
def set_out (to_ : Int) (c : Nat × Option Int) : Nat × Option Int :=
  (c.1, some to_)

/-- Stored periods of two contents whose captions have texts: content 1 has a period
from 0 to 100 with the text 7 and a period from 40, without end, with the texts 8 and 9;
content 2 has a period from 10, without end and without text. -/
def captions : Map (PlayerCaption (Nat × Option Int) Nat) :=
  [(1, [⟨⟨[(7, some 100)], 0⟩, 0, some 100⟩, ⟨⟨[(8, none), (9, none)], 1⟩, 40, none⟩]),
   (2, [⟨⟨[], 2⟩, 10, none⟩])]

/-- With one worker: two connections are enqueued, a third is accepted and made to wait
by `handle_accept` on the full queue. -/
def full_and_waiting : List Action :=
  [.accept false, .acceptor, .accept false, .acceptor, .accept false, .acceptor]

/-- A subtitle content with fonts 1 and 2 (fonts are numbers here), in English. -/
def english : SubtitleContent Nat :=
  { content_identifier := "a.srt"
    use_subtitles := true
    burn_subtitles := false
    subtitle_x_offset := .finite 0
    subtitle_y_offset := .finite (1 / 10)
    subtitle_x_scale := .finite 1
    subtitle_y_scale := .finite 1
    subtitle_language := "en"
    fonts := [1, 2] }

/-- The same content in French. -/
def french : SubtitleContent Nat :=
  { english with subtitle_language := "fr" }

/-- The same content with the second font replaced. -/
def other_font : SubtitleContent Nat :=
  { english with fonts := [1, 3] }

/-- The same content with a NaN as its X offset. -/
def not_a_number : SubtitleContent Nat :=
  { english with subtitle_x_offset := .nan }

/-- The file of a font: font 1 has none. -/
def file : Nat → Option String
  | 1 => none
  | n => some ("font" ++ toString n ++ ".ttf")

end Sample

/-! # Properties -/

/-! ## The queue bound -/

/-- Waking the workers does not change their number. -/
theorem notify_empty_length (ws : List Worker) : (notify_empty ws).length = ws.length := by
  simp [notify_empty]

/-- Waking the acceptor neither stops it nor restarts it. -/
theorem notify_full_stopped (a : Acceptor) : notify_full a = .stopped ↔ a = .stopped := by
  cases a <;> simp [notify_full]

/-- No action changes the number of worker threads. -/
theorem step_workers_length (env : Env) (s s1 : Server) (a : Action)
    (h : step env s a = some s1) :
    s1._worker_threads.length = s._worker_threads.length := by
  cases a with
  | accept error =>
    simp only [step] at h
    split at h
    · cases h; simp [handle_accept]; split <;> rfl
    · cases h
  | acceptor =>
    simp only [step] at h
    split at h
    · cases h; simp only [handle_accept_locked]
      split
      · rfl
      · simp only [start_accept]; split <;> simp [notify_empty_length]
    · cases h
  | worker i =>
    simp only [step] at h
    split at h
    · cases h; simp only [worker_thread_locked]; split <;> simp
    · simp only [worker_thread_unlocked] at h
      split at h
      · cases h
      · cases h; simp
    · cases h
  | terminate =>
    simp only [step] at h
    split at h
    · cases h
    · cases h; simp [terminate, notify_empty_length]
  | wake_worker i =>
    simp only [step] at h
    split at h
    · cases h; simp
    · cases h
  | wake_acceptor =>
    simp only [step] at h
    split at h
    · cases h; rfl
    · cases h

/-- One action keeps the queue within twice the number of workers plus the slack. -/
theorem step_queue_bound (env : Env) (s s1 : Server) (a : Action)
    (h : step env s a = some s1)
    (hb : s._queue.length ≤ 2 * s._worker_threads.length + queue_slack s) :
    s1._queue.length ≤ 2 * s1._worker_threads.length + queue_slack s1 := by
  have hl := step_workers_length env s s1 a h
  rw [hl]
  cases a with
  | accept error =>
    simp only [step] at h
    split at h
    · rename_i socket hacc
      cases h
      simp only [queue_slack, hacc] at hb
      simp only [handle_accept, queue_slack]
      cases error <;> simp at hb ⊢ <;> omega
    · cases h
  | acceptor =>
    simp only [step] at h
    split at h
    · rename_i socket hacc
      cases h
      simp only [queue_slack, hacc] at hb
      simp only [handle_accept_locked, start_accept, queue_slack]
      cases ht : s._terminate <;> simp [ht] at hb ⊢
      · split
        · simp; omega
        · simp; omega
      · omega
    · cases h
  | worker i =>
    simp only [step] at h
    split at h
    · cases h
      simp only [worker_thread_locked]
      simp only [queue_slack] at hb ⊢
      split
      · simpa using hb
      · simpa using hb
      · rename_i socket rest hq
        simp only [hq, List.length_cons, List.length_set] at hb ⊢
        omega
    · simp only [worker_thread_unlocked] at h
      split at h
      · cases h
      · cases h
        simp only [queue_slack, notify_full_stopped] at hb ⊢
        exact hb
    · cases h
  | terminate =>
    simp only [step] at h
    split at h
    · cases h
    · rename_i ht
      cases h
      simp only [queue_slack] at hb ⊢
      simp [ht] at hb
      simp only [terminate]
      omega
  | wake_worker i =>
    simp only [step] at h
    split at h
    · cases h; simpa [queue_slack] using hb
    · cases h
  | wake_acceptor =>
    simp only [step] at h
    split at h
    · rename_i socket hacc
      cases h
      simp only [queue_slack, hacc] at hb
      simp only [queue_slack]
      simp at hb ⊢
      omega
    · cases h

/-- A sequence of actions keeps the number of workers and the queue bound. -/
theorem exec_queue_bound (env : Env) (acts : List Action) (s s1 : Server)
    (h : exec env s acts = some s1)
    (hb : s._queue.length ≤ 2 * s._worker_threads.length + queue_slack s) :
    s1._worker_threads.length = s._worker_threads.length ∧
      s1._queue.length ≤ 2 * s1._worker_threads.length + queue_slack s1 := by
  induction acts generalizing s with
  | nil =>
    simp only [exec] at h
    cases h
    exact ⟨rfl, hb⟩
  | cons a rest ih =>
    simp only [exec] at h
    split at h
    · cases h
    · rename_i s2 hs
      have h2 := ih s2 h (step_queue_bound env s s2 a hs hb)
      exact ⟨h2.1.trans (step_workers_length env s s2 a hs), h2.2⟩

/-- When a sequence of actions can happen, `Sample.reach` is the state it leads to. -/
theorem reach_spec (num_threads : Int) (acts : List Action)
    (h : (exec Sample.env (run false num_threads) acts).isSome = true) :
    exec Sample.env (run false num_threads) acts = some (Sample.reach num_threads acts) := by
  unfold Sample.reach
  cases hx : exec Sample.env (run false num_threads) acts with
  | none => simp [hx] at h
  | some s => rfl

/-- The server starts with the workers it was asked for. -/
theorem run_workers (verbose : Bool) (num_threads : Int) :
    (run verbose num_threads)._worker_threads.length = num_threads.toNat := by
  simp [run, start_accept]

/-- The server starts with an empty queue. -/
theorem run_queue (verbose : Bool) (num_threads : Int) :
    (run verbose num_threads)._queue = [] := by
  simp [run, start_accept]

/-- C1, as stated, fails: with one worker, the worker claims the first connection and
is busy with it, two more connections are enqueued, and a fourth is accepted and waits
in `handle_accept` for room; when the shutdown flag is set the wait ends and the fourth
connection is pushed, so the queue holds 3 > 2 × 1 connections. -/
theorem queue_exceeds_bound_at_shutdown :
    (exec Sample.env (run false 1) Sample.shutdown_while_full).isSome = true ∧
      (Sample.reach 1 Sample.shutdown_while_full)._worker_threads = [.busy 0] ∧
      (Sample.reach 1 Sample.shutdown_while_full)._queue = [1, 2, 3] ∧
      ¬ ((Sample.reach 1 Sample.shutdown_while_full)._queue.length
          ≤ 2 * (Sample.reach 1 Sample.shutdown_while_full)._worker_threads.length) := by
  decide

/-- C1, amended: for every worker count and every sequence of server steps, the queue
holds at most 2 × N connections in every state in which the shutdown flag is clear. -/
theorem queue_bound_while_running (env : Env) (verbose : Bool) (num_threads : Int)
    (acts : List Action) (s : Server)
    (h : exec env (run verbose num_threads) acts = some s)
    (hrun : s._terminate = false) :
    s._worker_threads.length = num_threads.toNat ∧ s._queue.length ≤ 2 * num_threads.toNat := by
  have h0 : (run verbose num_threads)._queue.length
      ≤ 2 * (run verbose num_threads)._worker_threads.length
        + queue_slack (run verbose num_threads) := by
    simp [run_queue]
  have h1 := exec_queue_bound env acts _ s h h0
  rw [run_workers] at h1
  refine ⟨h1.1, ?_⟩
  have h2 := h1.2
  simp only [queue_slack, hrun] at h2
  rw [h1.1] at h2
  simpa using h2

/-- The amended C1 at work: two workers, four connections enqueued, flag clear. -/
theorem queue_bound_while_running_witness :
    (Sample.reach 2 Sample.fill)._terminate = false ∧
      (Sample.reach 2 Sample.fill)._queue = [0, 1, 2, 3] ∧
      (Sample.reach 2 Sample.fill)._worker_threads.length = (2 : Int).toNat ∧
      (Sample.reach 2 Sample.fill)._queue.length ≤ 2 * (2 : Int).toNat :=
  ⟨rfl, rfl,
    queue_bound_while_running Sample.env false 2 Sample.fill (Sample.reach 2 Sample.fill)
      (reach_spec _ _ (by decide)) rfl⟩

/-! ## Every connection is claimed once -/

/-- One action keeps the queue in agreement with its history. -/
theorem step_handover (env : Env) (s s1 : Server) (a : Action)
    (h : step env s a = some s1) (hs : Handover s) : Handover s1 := by
  obtain ⟨h1, h2, h3, h4⟩ := hs
  cases a with
  | accept error =>
    simp only [step] at h
    split at h
    · rename_i socket hacc
      cases h
      have hf := h2 socket (by simp [hacc, Acceptor.socket])
      cases error
      · exact ⟨h1, by simpa [handle_accept, Acceptor.socket] using hf, h3, h4⟩
      · exact ⟨h1, by simp [handle_accept, Acceptor.socket], h3, h4⟩
    · cases h
  | acceptor =>
    simp only [step] at h
    split at h
    · rename_i socket hacc
      cases h
      have hf := h2 socket (by simp [hacc, Acceptor.socket])
      simp only [handle_accept_locked]
      split
      · exact ⟨h1, by simpa [Acceptor.socket] using hf, h3, h4⟩
      · have hn : (s.pushed ++ [socket]).Nodup := by
          rw [List.nodup_append]
          refine ⟨h3, List.nodup_singleton _, ?_⟩
          intro x hx hx2
          simp only [List.mem_singleton] at hx2
          exact hf.2 (hx2 ▸ hx)
        have hlt : ∀ x ∈ s.pushed ++ [socket], x < s.sockets := by
          intro x hx
          rcases List.mem_append.1 hx with hx | hx
          · exact h1 x hx
          · simp only [List.mem_singleton] at hx
            exact hx ▸ hf.1
        simp only [start_accept]
        split
        · refine ⟨hlt, ?_, hn, ?_⟩
          · simp [Acceptor.socket]
          · simp [h4]
        · refine ⟨fun x hx => Nat.lt_succ_of_lt (hlt x hx), ?_, hn, ?_⟩
          · intro id hid
            simp only [Acceptor.socket, Option.some.injEq] at hid
            subst hid
            exact ⟨Nat.lt_succ_self _, fun hm => Nat.lt_irrefl _ (hlt _ hm)⟩
          · simp [h4]
    · cases h
  | worker i =>
    simp only [step] at h
    split at h
    · cases h
      simp only [worker_thread_locked]
      split
      · exact ⟨h1, h2, h3, h4⟩
      · exact ⟨h1, h2, h3, h4⟩
      · rename_i socket rest hq
        refine ⟨h1, h2, h3, ?_⟩
        simp [h4, hq]
    · simp only [worker_thread_unlocked] at h
      split at h
      · cases h
      · cases h
        refine ⟨h1, ?_, h3, h4⟩
        intro id hid
        apply h2
        cases hacc : s.acceptor <;> simp [hacc, notify_full, Acceptor.socket] at hid ⊢ <;> exact hid
    · cases h
  | terminate =>
    simp only [step] at h
    split at h
    · cases h
    · cases h
      refine ⟨h1, ?_, h3, h4⟩
      intro id hid
      apply h2
      cases hacc : s.acceptor <;>
        simp [terminate, hacc, notify_full, Acceptor.socket] at hid ⊢ <;> exact hid
  | wake_worker i =>
    simp only [step] at h
    split at h
    · cases h; exact ⟨h1, h2, h3, h4⟩
    · cases h
  | wake_acceptor =>
    simp only [step] at h
    split at h
    · rename_i socket hacc
      cases h
      refine ⟨h1, ?_, h3, h4⟩
      intro id hid
      apply h2
      simpa [hacc, Acceptor.socket] using hid
    · cases h

/-- A sequence of actions keeps the queue in agreement with its history. -/
theorem exec_handover (env : Env) (acts : List Action) (s s1 : Server)
    (h : exec env s acts = some s1) (hs : Handover s) : Handover s1 := by
  induction acts generalizing s with
  | nil =>
    simp only [exec] at h
    cases h
    exact hs
  | cons a rest ih =>
    simp only [exec] at h
    split at h
    · cases h
    · rename_i s2 hstep
      exact ih s2 h (step_handover env s s2 a hstep hs)

/-- The start state agrees with its (empty) history. -/
theorem run_handover (verbose : Bool) (num_threads : Int) :
    Handover (run verbose num_threads) := by
  simp [Handover, run, start_accept, Acceptor.socket]

/-- C2: in every run of the server, the sockets claimed so far (in the order of the
claims) followed by the sockets still queued are exactly the sockets enqueued so far,
and no socket occurs twice among them.  Hence no connection is claimed twice, by one
worker or by two, and every enqueued connection that has left the queue was claimed. -/
theorem claimed_exactly_once (env : Env) (verbose : Bool) (num_threads : Int)
    (acts : List Action) (s : Server)
    (h : exec env (run verbose num_threads) acts = some s) :
    s.claimed.map Prod.snd ++ s._queue = s.pushed ∧
      (s.claimed.map Prod.snd ++ s._queue).Nodup := by
  have hh := exec_handover env acts _ s h (run_handover verbose num_threads)
  obtain ⟨-, -, h3, h4⟩ := hh
  exact ⟨h4.symm, h4 ▸ h3⟩

/-- C2 at work: four connections enqueued, two of them claimed by the two workers. -/
theorem claimed_exactly_once_witness :
    (Sample.reach 2 (Sample.fill ++ [.worker 0, .worker 1])).claimed = [(0, 0), (1, 1)] ∧
      (Sample.reach 2 (Sample.fill ++ [.worker 0, .worker 1]))._queue = [2, 3] ∧
      (Sample.reach 2 (Sample.fill ++ [.worker 0, .worker 1])).pushed = [0, 1, 2, 3] ∧
      ((Sample.reach 2 (Sample.fill ++ [.worker 0, .worker 1])).claimed.map Prod.snd
          ++ (Sample.reach 2 (Sample.fill ++ [.worker 0, .worker 1]))._queue
        = (Sample.reach 2 (Sample.fill ++ [.worker 0, .worker 1])).pushed ∧
       ((Sample.reach 2 (Sample.fill ++ [.worker 0, .worker 1])).claimed.map Prod.snd
          ++ (Sample.reach 2 (Sample.fill ++ [.worker 0, .worker 1]))._queue).Nodup) := by
  have h := claimed_exactly_once Sample.env false 2 (Sample.fill ++ [.worker 0, .worker 1])
    (Sample.reach 2 (Sample.fill ++ [.worker 0, .worker 1]))
    (reach_spec 2 (Sample.fill ++ [.worker 0, .worker 1]) (by decide))
  exact ⟨by decide, by decide, by decide, h⟩

/-! ## One job: `process` and the body of `worker_thread` -/

/-- `process` itself never writes a timing record. -/
theorem process_no_timing (env : Env) (socket : Nat) (t : List Event) (r : Throws Int)
    (h : process env socket = some (t, r)) : t.any Event.is_timing = false := by
  simp only [process] at h
  repeat' (split at h)
  all_goals (simp at h; try (obtain ⟨rfl, rfl⟩ := h); simp [Event.is_timing])

/-- `process` has no defined result exactly when the descriptor that was read holds no
NUL byte; in every other case it returns or throws. -/
theorem process_undefined_iff (env : Env) (socket : Nat) :
    process env socket = none ↔
      ∃ length buffer, (env.peer socket).read_uint32 = .ok length ∧
        (env.peer socket).read length = .ok buffer ∧ c_str buffer = none := by
  simp only [process]
  repeat' split
  all_goals simp_all

/-- The job of a worker has a defined result exactly when `process` has one. -/
theorem job_defined_iff (env : Env) (verbose : Bool) (socket : Nat) :
    worker_thread_job env verbose socket = none ↔ process env socket = none := by
  unfold worker_thread_job
  cases hp : process env socket with
  | none => simp
  | some tr =>
    obtain ⟨t, r⟩ := tr
    simp only [reduceCtorEq, iff_false]
    split <;> simp

/-- `process` returns normally in two ways only: at the end, or at the version check. -/
theorem process_ok (env : Env) (socket : Nat) (t : List Event) (f : Int)
    (h : process env socket = some (t, .ok f)) :
    Completed env socket f ∨
      (f = -1 ∧ ∃ xml version, Parsed env socket xml version ∧
        version ≠ env.SERVER_LINK_VERSION) := by
  simp only [process] at h
  repeat' (split at h)
  all_goals (simp at h)
  · exact Or.inr ⟨h.2.symm, _, _, ⟨_, _, _, by assumption, by assumption, by assumption,
      by assumption, by assumption⟩, by assumption⟩
  · obtain ⟨-, rfl⟩ := h
    exact Or.inl ⟨_, ⟨_, _, ⟨_, _, _, by assumption, by assumption, by assumption,
      by assumption, by simp_all⟩, by assumption, by assumption, by assumption⟩,
      by assumption, by assumption⟩

/-- A job without any error makes `process` return its frame index. -/
theorem process_completed (env : Env) (socket : Nat) (f : Int)
    (h : Completed env socket f) : ∃ t, process env socket = some (t, .ok f) := by
  obtain ⟨encoded, ⟨xml, pvf, ⟨length, buffer, s, h1, h2, h3, h4, h5⟩, h6, h7, h8⟩, h9, h10⟩ := h
  simp [process, h1, h2, h3, h4, h5, h6, h7, h8, h9, h10]

/-- At a version mismatch `process` has read and parsed the descriptor, logs one
error and returns -1. -/
theorem process_mismatch (env : Env) (socket : Nat) (xml : env.Document) (version : Int)
    (hp : Parsed env socket xml version) (hv : version ≠ env.SERVER_LINK_VERSION) :
    ∃ length s, process env socket =
      some ([.read_uint32, .read length, .read_string s,
             .cerr "Mismatched server/client versions\n",
             .log (.error "Mismatched server/client versions")], .ok (-1)) := by
  obtain ⟨length, buffer, s, h1, h2, h3, h4, h5⟩ := hp
  exact ⟨length, s, by simp [process, h1, h2, h3, h4, h5, hv]⟩

/-- Each of the per-job failures makes `process` throw. -/
theorem process_failure (env : Env) (socket : Nat) (what : String)
    (h : JobFailure env socket what) : ∃ t, process env socket = some (t, .error what) := by
  cases h with
  | read_length h1 => simp [process, h1]
  | read_descriptor length h1 h2 => simp [process, h1, h2]
  | read_payload xml hp h6 =>
    obtain ⟨length, buffer, s, h1, h2, h3, h4, h5⟩ := hp
    simp [process, h1, h2, h3, h4, h5, h6]
  | codec xml pvf index hp h6 h7 h8 =>
    obtain ⟨length, buffer, s, h1, h2, h3, h4, h5⟩ := hp
    simp [process, h1, h2, h3, h4, h5, h6, h7, h8]
  | send_size index encoded he h9 =>
    obtain ⟨xml, pvf, ⟨length, buffer, s, h1, h2, h3, h4, h5⟩, h6, h7, h8⟩ := he
    simp [process, h1, h2, h3, h4, h5, h6, h7, h8, h9]
  | send_data index encoded he h9 h10 =>
    obtain ⟨xml, pvf, ⟨length, buffer, s, h1, h2, h3, h4, h5⟩, h6, h7, h8⟩ := he
    simp [process, h1, h2, h3, h4, h5, h6, h7, h8, h9, h10]

/-- The job of a worker when `process` throws: the catch block, then the reset. -/
theorem job_of_error (env : Env) (verbose : Bool) (socket : Nat) (t : List Event)
    (what : String) (h : process env socket = some (t, .error what)) :
    worker_thread_job env verbose socket = some (t ++ caught what ++ [Event.reset socket]) := by
  simp [worker_thread_job, h]

/-- The job of a worker writes a timing record exactly when `process` returned a
frame number that is not negative. -/
theorem job_timing_iff (env : Env) (verbose : Bool) (socket : Nat) (t : List Event)
    (h : worker_thread_job env verbose socket = some t) :
    t.any Event.is_timing = true ↔
      ∃ t0 f, process env socket = some (t0, .ok f) ∧ 0 ≤ f := by
  unfold worker_thread_job at h
  cases hp : process env socket with
  | none => simp [hp] at h
  | some tr =>
    obtain ⟨t0, r⟩ := tr
    have hno := process_no_timing env socket t0 r hp
    cases r with
    | error what =>
      simp [hp] at h
      subst h
      simp [List.any_append, hno, caught, Event.is_timing]
    | ok f =>
      by_cases hf : 0 ≤ f
      · cases hre : (env.peer socket).remote_endpoint <;>
          simp [hp, hre, hf] at h <;> subst h <;>
          simp [List.any_append, hno, caught, Event.is_timing, encoded_entry, hf] <;>
          exact ⟨t0, f, ⟨rfl, rfl⟩, hf⟩
      · cases hre : (env.peer socket).remote_endpoint <;>
          simp [hp, hre, hf] at h <;> subst h <;>
          simp [List.any_append, hno, caught, Event.is_timing, hf] <;>
          omega

/-! ## Version mismatch -/

/-- C3, as stated, fails: socket 1 of the sample sends a descriptor of version 1 to a
server of version 2 and is gone when the worker asks for its address; the job logs two
errors, not exactly one. -/
theorem version_mismatch_logs_two_errors :
    Parsed Sample.env 1 ((1 : Int), (17 : Int)) 1 ∧
      (1 : Int) ≠ Sample.env.SERVER_LINK_VERSION ∧
      (worker_thread_job Sample.env false 1).map (fun t => t.countP Event.is_error) = some 2 :=
  ⟨⟨3, [1, 27, 0], [1, 27], rfl, rfl, rfl, rfl, rfl⟩, by decide, by decide⟩

/-- C3, amended: when the descriptor of a job has a `Version` other than
`SERVER_LINK_VERSION`, the job of the worker ends after the descriptor is parsed: the
payload is not read, the codec is not invoked, nothing is written on the socket, no
timing record is logged, the socket is reset (the connection is closed) once, and the
errors logged are exactly one (the mismatch) when the address of the peer can be
looked up afterwards, and exactly two when that lookup throws. -/
theorem version_mismatch (env : Env) (verbose : Bool) (socket : Nat) (xml : env.Document)
    (version : Int) (hp : Parsed env socket xml version)
    (hv : version ≠ env.SERVER_LINK_VERSION) :
    ∃ t, worker_thread_job env verbose socket = some t ∧
      t.any Event.is_payload = false ∧
      t.any Event.is_codec = false ∧
      t.any Event.is_write = false ∧
      t.any Event.is_timing = false ∧
      t.count (Event.reset socket) = 1 ∧
      Event.log (.error "Mismatched server/client versions") ∈ t ∧
      t.countP Event.is_error =
        (match (env.peer socket).remote_endpoint with
         | .ok _ => 1
         | .error _ => 2) := by
  obtain ⟨length, s, hproc⟩ := process_mismatch env socket xml version hp hv
  cases hre : (env.peer socket).remote_endpoint <;>
    simp [worker_thread_job, hproc, hre, caught, Event.is_payload, Event.is_codec,
      Event.is_write, Event.is_timing, Event.is_error, List.countP_cons, List.count_cons]

/-- The amended C3 at work on socket 1 of the sample (version 1 against version 2). -/
theorem version_mismatch_witness :
    ∃ t, worker_thread_job Sample.env false 1 = some t ∧
      t.any Event.is_payload = false ∧
      t.any Event.is_codec = false ∧
      t.any Event.is_write = false ∧
      t.any Event.is_timing = false ∧
      t.count (Event.reset 1) = 1 ∧
      Event.log (.error "Mismatched server/client versions") ∈ t ∧
      t.countP Event.is_error =
        (match (Sample.env.peer 1).remote_endpoint with
         | .ok _ => 1
         | .error _ => 2) :=
  version_mismatch Sample.env false 1 ((1 : Int), (17 : Int)) 1
    ⟨3, [1, 27, 0], [1, 27], rfl, rfl, rfl, rfl, rfl⟩ (by decide)

/-! ## Timing records -/

/-- C4, as stated, fails: socket 2 of the sample sends a job for frame -5 that is read,
encoded and answered without any error, and the worker logs no timing record for it. -/
theorem completed_without_timing_record :
    Completed Sample.env 2 (-5) ∧
      (worker_thread_job Sample.env false 2).map (fun t => t.any Event.is_timing)
        = some false :=
  ⟨⟨[3, 2, 1], ⟨((2 : Int), (-5 : Int)), [1, 2, 3],
      ⟨3, [2, 5, 0], [2, 5], rfl, rfl, rfl, by simp [Sample.env, Sample.read_string], rfl⟩,
      rfl, rfl, rfl⟩, rfl, rfl⟩,
    by decide⟩

/-- C4, amended: the job of a worker logs a timing record if and only if the job was
fully processed without error (descriptor and payload read, frame encoded, response
sent) and its frame index is not negative.  Whether the address of the peer can be
looked up afterwards plays no part. -/
theorem timing_record_iff (env : Env) (verbose : Bool) (socket : Nat) :
    (∃ t, worker_thread_job env verbose socket = some t ∧ t.any Event.is_timing = true) ↔
      ∃ f, Completed env socket f ∧ 0 ≤ f := by
  constructor
  · rintro ⟨t, ht, hany⟩
    obtain ⟨t0, f, hp, hf⟩ := (job_timing_iff env verbose socket t ht).1 hany
    rcases process_ok env socket t0 f hp with hc | ⟨hneg, -⟩
    · exact ⟨f, hc, hf⟩
    · omega
  · rintro ⟨f, hc, hf⟩
    obtain ⟨t0, hp⟩ := process_completed env socket f hc
    cases hj : worker_thread_job env verbose socket with
    | none =>
      rw [job_defined_iff] at hj
      simp [hp] at hj
    | some t => exact ⟨t, rfl, (job_timing_iff env verbose socket t hj).2 ⟨t0, f, hp, hf⟩⟩

/-! ## A failing job -/

/-- C10: when the job that worker `i` has claimed fails with a transport error while
the request is read, with a codec failure, or with a transport error while the
response is sent, the worker's next stretch logs the error, resets the socket (closes
the connection), logs no timing record and leaves the worker at the head of its loop;
the queue, the shutdown flag, the history of the queue and every other worker are as
before. -/
theorem job_failure_isolated (env : Env) (s : Server) (i socket : Nat) (what : String)
    (hw : s._worker_threads[i]? = some (.busy socket))
    (hf : JobFailure env socket what) :
    ∃ s1 t, step env s (.worker i) = some s1 ∧
      s1.trace = s.trace ++ t ∧
      Event.log (.error ("Error: " ++ what)) ∈ t ∧
      Event.reset socket ∈ t ∧
      t.any Event.is_timing = false ∧
      s1._worker_threads = s._worker_threads.set i .idle ∧
      s1._queue = s._queue ∧
      s1._terminate = s._terminate ∧
      s1.pushed = s.pushed ∧
      s1.claimed = s.claimed := by
  obtain ⟨t0, hp⟩ := process_failure env socket what hf
  have hj := job_of_error env s._verbose socket t0 what hp
  have hno := process_no_timing env socket t0 _ hp
  refine ⟨{ s with trace := s.trace ++ (t0 ++ caught what ++ [Event.reset socket]),
                      acceptor := notify_full s.acceptor,
                      _worker_threads := s._worker_threads.set i .idle },
    t0 ++ caught what ++ [Event.reset socket], ?_, rfl, ?_, ?_, ?_, rfl, rfl, rfl, rfl, rfl⟩
  · simp [step, hw, worker_thread_unlocked, hj]
  · simp [caught]
  · simp
  · simp [List.any_append, hno, caught, Event.is_timing]

/-- C10 at work: in the sample, worker 1 has claimed socket 3, whose response cannot
be written. -/
theorem job_failure_isolated_witness :
    (Sample.reach 2 Sample.busy)._worker_threads = [.busy 2, .busy 3] ∧
      ∃ s1 t, step Sample.env (Sample.reach 2 Sample.busy) (.worker 1) = some s1 ∧
        s1.trace = (Sample.reach 2 Sample.busy).trace ++ t ∧
        Event.log (.error ("Error: " ++ "error during async_write")) ∈ t ∧
        Event.reset 3 ∈ t ∧
        t.any Event.is_timing = false ∧
        s1._worker_threads = (Sample.reach 2 Sample.busy)._worker_threads.set 1 .idle ∧
        s1._queue = (Sample.reach 2 Sample.busy)._queue ∧
        s1._terminate = (Sample.reach 2 Sample.busy)._terminate ∧
        s1.pushed = (Sample.reach 2 Sample.busy).pushed ∧
        s1.claimed = (Sample.reach 2 Sample.busy).claimed := by
  have h := job_failure_isolated Sample.env (Sample.reach 2 Sample.busy) 1 3
    "error during async_write" (by decide)
    (JobFailure.send_data 9 [3, 2, 1]
      ⟨((2 : Int), (9 : Int)), [1, 2, 3],
        ⟨3, [2, 19, 0], [2, 19], rfl, rfl, rfl, rfl, rfl⟩, rfl, rfl, rfl⟩ rfl rfl)
  exact ⟨by decide, h⟩

/-! ## The accept loop -/

/-- Once the acceptor has nothing pending it stays so, and nothing is pushed any more. -/
theorem step_stopped (env : Env) (s s1 : Server) (a : Action)
    (h : step env s a = some s1) (hs : s.acceptor = .stopped) :
    s1.acceptor = .stopped ∧ s1.pushed = s.pushed := by
  cases a with
  | accept error => simp [step, hs] at h
  | acceptor => simp [step, hs] at h
  | worker i =>
    simp only [step] at h
    split at h
    · cases h
      simp only [worker_thread_locked]
      split <;> exact ⟨hs, rfl⟩
    · simp only [worker_thread_unlocked] at h
      split at h
      · cases h
      · cases h
        exact ⟨by simp [hs, notify_full], rfl⟩
    · cases h
  | terminate =>
    simp only [step] at h
    split at h
    · cases h
    · cases h
      exact ⟨by simp [terminate, hs, notify_full], rfl⟩
  | wake_worker i =>
    simp only [step] at h
    split at h
    · cases h; exact ⟨hs, rfl⟩
    · cases h
  | wake_acceptor => simp [step, hs] at h

/-- The same over a sequence of actions. -/
theorem exec_stopped (env : Env) (acts : List Action) (s s1 : Server)
    (h : exec env s acts = some s1) (hs : s.acceptor = .stopped) :
    s1.acceptor = .stopped ∧ s1.pushed = s.pushed := by
  induction acts generalizing s with
  | nil =>
    simp only [exec] at h
    cases h
    exact ⟨hs, rfl⟩
  | cons a rest ih =>
    simp only [exec] at h
    split at h
    · cases h
    · rename_i s2 hstep
      have h2 := step_stopped env s s2 a hstep hs
      have h3 := ih s2 h h2.1
      exact ⟨h3.1, h3.2.trans h2.2⟩

/-- C5, as stated, fails: when the first accept of the sample server completes with an
error, nothing is added to the record of calls (no log entry), the acceptor has no
accept pending, and no later connection can be accepted. -/
theorem accept_error_is_silent_and_final :
    (Sample.reach 2 [.accept true]).trace = (run false 2).trace ∧
      (Sample.reach 2 [.accept true]).acceptor = .stopped ∧
      step Sample.env (Sample.reach 2 [.accept true]) (.accept false) = none ∧
      exec Sample.env (run false 2) [.accept true, .accept false] = none := by
  decide

/-- C5, amended: when an accept completes with a transport error, `handle_accept`
returns at once: nothing is logged, nothing is enqueued and no further accept is
started, so the accept loop has ended: whatever happens afterwards, no connection is
accepted or enqueued any more. -/
theorem accept_error_ends_accept_loop (env : Env) (s : Server) (socket : Nat)
    (h : s.acceptor = .armed socket) :
    ∃ s1, step env s (.accept true) = some s1 ∧
      s1.trace = s.trace ∧ s1._queue = s._queue ∧ s1.pushed = s.pushed ∧
      s1.acceptor = .stopped ∧
      (∀ error, step env s1 (.accept error) = none) ∧
      ∀ acts s2, exec env s1 acts = some s2 →
        s2.acceptor = .stopped ∧ s2.pushed = s.pushed := by
  refine ⟨{ s with acceptor := .stopped }, ?_, rfl, rfl, rfl, rfl, ?_, ?_⟩
  · simp [step, h, handle_accept]
  · intro error
    simp [step]
  · intro acts s2 h2
    exact exec_stopped env acts { s with acceptor := .stopped } s2 h2 rfl

/-- The amended C5 at work on the first accept of the sample server. -/
theorem accept_error_ends_accept_loop_witness :
    (run false 2).acceptor = .armed 0 ∧
      ∃ s1, step Sample.env (run false 2) (.accept true) = some s1 ∧
        s1.trace = (run false 2).trace ∧ s1._queue = (run false 2)._queue ∧
        s1.pushed = (run false 2).pushed ∧
        s1.acceptor = .stopped ∧
        (∀ error, step Sample.env s1 (.accept error) = none) ∧
        ∀ acts s2, exec Sample.env s1 acts = some s2 →
          s2.acceptor = .stopped ∧ s2.pushed = (run false 2).pushed :=
  ⟨rfl, accept_error_ends_accept_loop Sample.env (run false 2) 0 rfl⟩

/-- C6, as stated, fails: with two workers, four queued connections and the flag
clear, the accept that is pending completes: the fifth connection (socket 4) is
accepted and held by `handle_accept` while the queue still holds four. -/
theorem fifth_connection_accepted_while_full :
    (Sample.reach 2 Sample.fill)._queue.length = 4 ∧
      (Sample.reach 2 Sample.fill)._worker_threads.length = 2 ∧
      (Sample.reach 2 Sample.fill)._terminate = false ∧
      (step Sample.env (Sample.reach 2 Sample.fill) (.accept false)).map
        (fun s => (s.acceptor, s._queue.length)) = some (.handling 4, 4) := by
  decide

/-- C6, amended: while the shutdown flag is clear and the queue holds 2 × worker_count
or more connections, no step enqueues a connection; a connection that `handle_accept`
holds stays held, and as long as one is held no further accept completes.  (One
connection can thus be accepted while the queue is full; it is enqueued only after
the queue length has dropped below 2 × worker_count.) -/
theorem full_queue_blocks_enqueue (env : Env) (s s1 : Server) (a : Action)
    (h : step env s a = some s1) (hrun : s._terminate = false)
    (hfull : 2 * s._worker_threads.length ≤ s._queue.length) :
    s1.pushed = s.pushed ∧
      ∀ socket, s.acceptor.accepted = some socket →
        s1.acceptor.accepted = some socket ∧ ∀ error, a ≠ .accept error := by
  cases a with
  | accept error =>
    simp only [step] at h
    split at h
    · rename_i socket hacc
      cases h
      refine ⟨by cases error <;> rfl, ?_⟩
      intro id hid
      simp [hacc, Acceptor.accepted] at hid
    · cases h
  | acceptor =>
    simp only [step] at h
    split at h
    · rename_i socket hacc
      cases h
      have hc : s._queue.length ≥ s._worker_threads.length * 2 ∧ s._terminate = false :=
        ⟨by omega, hrun⟩
      have hw : handle_accept_locked s socket = { s with acceptor := .waiting socket } := by
        simp only [handle_accept_locked]
        exact if_pos hc
      rw [hw]
      refine ⟨rfl, ?_⟩
      intro id hid
      simp only [hacc, Acceptor.accepted, Option.some.injEq] at hid
      subst hid
      exact ⟨rfl, by simp⟩
    · cases h
  | worker i =>
    simp only [step] at h
    split at h
    · cases h
      simp only [worker_thread_locked]
      split <;> exact ⟨rfl, fun id hid => ⟨hid, by simp⟩⟩
    · simp only [worker_thread_unlocked] at h
      split at h
      · cases h
      · cases h
        refine ⟨rfl, ?_⟩
        intro id hid
        refine ⟨?_, by simp⟩
        cases hacc : s.acceptor <;> simp [hacc, Acceptor.accepted, notify_full] at hid ⊢ <;>
          exact hid
    · cases h
  | terminate =>
    simp only [step] at h
    split at h
    · cases h
    · cases h
      refine ⟨rfl, ?_⟩
      intro id hid
      refine ⟨?_, by simp⟩
      cases hacc : s.acceptor <;>
        simp [terminate, hacc, Acceptor.accepted, notify_full] at hid ⊢ <;> exact hid
  | wake_worker i =>
    simp only [step] at h
    split at h
    · cases h; exact ⟨rfl, fun id hid => ⟨hid, by simp⟩⟩
    · cases h
  | wake_acceptor =>
    simp only [step] at h
    split at h
    · rename_i socket hacc
      cases h
      refine ⟨rfl, ?_⟩
      intro id hid
      refine ⟨?_, by simp⟩
      simpa [hacc, Acceptor.accepted] using hid
    · cases h

/-- The amended C6 at work: two workers, four queued connections, the fifth (socket 4)
held by `handle_accept`; the acceptor runs its loop test and goes to wait, still
holding it, and nothing is enqueued. -/
theorem full_queue_blocks_enqueue_witness :
    (Sample.reach 2 (Sample.fill ++ [.accept false]))._queue = [0, 1, 2, 3] ∧
      (Sample.reach 2 (Sample.fill ++ [.accept false])).acceptor = .handling 4 ∧
      (Sample.reach 2 (Sample.fill ++ [.accept false, .acceptor])).acceptor = .waiting 4 ∧
      (Sample.reach 2 (Sample.fill ++ [.accept false, .acceptor])).pushed
        = (Sample.reach 2 (Sample.fill ++ [.accept false])).pushed ∧
      (Sample.reach 2 (Sample.fill ++ [.accept false, .acceptor])).acceptor.accepted
        = some 4 := by
  have h := full_queue_blocks_enqueue Sample.env
    (Sample.reach 2 (Sample.fill ++ [.accept false]))
    (Sample.reach 2 (Sample.fill ++ [.accept false, .acceptor])) .acceptor
    (by decide) (by decide) (by decide)
  exact ⟨by decide, by decide, by decide, h.1, (h.2 4 (by decide)).1⟩

/-! ## Discovery: datagrams and replies -/

/-- C7, the code at a failing input: the sample responder (token `HELLO`, buffer of
eight bytes) receives the token from 192.168.0.2 and then the one-byte datagram `H`
from 192.168.0.9.  The second datagram is not the token, with or without its NUL, and
yet it is answered: the buffer still holds the rest of the first datagram. -/
theorem stale_buffer_answers_other_datagram :
    [72] ≠ Sample.env.DCPOMATIC_HELLO ++ [0] ∧
      [72] ≠ Sample.env.DCPOMATIC_HELLO ∧
      (responder Sample.env false 2 Sample.listening
          [Sample.token, Sample.hello [72] "192.168.0.9"]).2 =
        [[.connect "192.168.0.2" 6193, .write_size 3, .write_data [50, 50, 0]],
         [.connect "192.168.0.9" 6193, .write_size 3, .write_data [50, 50, 0]]] := by
  decide

/-- C9, as stated, fails twice on the sample responder.  When the reply connection is
refused, the only call made is the connect: nothing is logged, printed or stored.  When
the reply document cannot be built, the exception is stored and the responder has
stopped: the token that arrives next is not answered. -/
theorem reply_error_unrecorded_or_final :
    (datagram Sample.env false 2 Sample.listening Sample.refused).2
        = [.connect "192.168.0.2" 6193] ∧
      (datagram Sample.env false 2 Sample.listening Sample.refused).1.stored = none ∧
      (responder Sample.env false 2 Sample.listening [Sample.broken, Sample.token]).2
        = [[.store_current "std::bad_alloc"], []] ∧
      (responder Sample.env false 2 Sample.listening [Sample.broken, Sample.token]).1.listening
        = false := by
  decide

/-- C9, amended: an error raised while connecting to the sender or while writing the
reply is caught and dropped: nothing is logged, printed or stored, and the responder
listens again for the next datagram.  An error raised while the reply document is
built is not caught in the handler: `store_current` keeps it and the responder has
stopped, so no later datagram is handled. -/
theorem reply_error_handling (env : Env) (verbose : Bool) (workers : Nat) (b : Broadcast)
    (r : Reception) (hl : b.listening = true) :
    (r.xml_error = none →
      (datagram env verbose workers b r).1.listening = true ∧
      (datagram env verbose workers b r).1.stored = b.stored ∧
      (datagram env verbose workers b r).2.any Event.is_record = false) ∧
    (∀ what, r.xml_error = some what →
      is_hello env (terminated (receive_from b r).buffer) = true →
      (datagram env verbose workers b r).1.listening = false ∧
      (datagram env verbose workers b r).1.stored = some what ∧
      (datagram env verbose workers b r).2 = [.store_current what] ∧
      ∀ r2, datagram env verbose workers (datagram env verbose workers b r).1 r2
        = ((datagram env verbose workers b r).1, [])) := by
  constructor
  · intro hxml
    simp only [datagram, hl, if_true, broadcast_received, hxml]
    cases hh : is_hello env (terminated (receive_from b r).buffer)
    · simp [receive_from]
    · cases verbose <;> cases hc : r.connect <;> cases hw : r.write_size <;>
        simp [Event.is_record, receive_from]
  · intro what hxml hh
    simp [datagram, hl, broadcast_received, hxml, hh]

/-- The amended C9 at work on the sample responder: a refused reply connection, and a
reply document that cannot be built. -/
theorem reply_error_handling_witness :
    ((datagram Sample.env false 2 Sample.listening Sample.refused).1.listening = true ∧
      (datagram Sample.env false 2 Sample.listening Sample.refused).1.stored
        = Sample.listening.stored ∧
      (datagram Sample.env false 2 Sample.listening Sample.refused).2.any Event.is_record
        = false) ∧
    ((datagram Sample.env false 2 Sample.listening Sample.broken).1.listening = false ∧
      (datagram Sample.env false 2 Sample.listening Sample.broken).1.stored
        = some "std::bad_alloc" ∧
      (datagram Sample.env false 2 Sample.listening Sample.broken).2
        = [.store_current "std::bad_alloc"] ∧
      ∀ r2, datagram Sample.env false 2
          (datagram Sample.env false 2 Sample.listening Sample.broken).1 r2
        = ((datagram Sample.env false 2 Sample.listening Sample.broken).1, [])) := by
  have h1 := (reply_error_handling Sample.env false 2 Sample.listening Sample.refused rfl).1 rfl
  have h2 := (reply_error_handling Sample.env false 2 Sample.listening Sample.broken rfl).2
    "std::bad_alloc" rfl (by decide)
  exact ⟨h1, h2⟩

/-! ## A job that succeeds -/

/-- The calls of `process` on a job without any error: the reads, the codec, and the
two writes of the response. -/
theorem process_encoded (env : Env) (socket : Nat) (f : Int) (encoded : List Byte)
    (he : Encoded env socket f encoded)
    (h9 : (env.peer socket).write_size = .ok ())
    (h10 : (env.peer socket).write_data = .ok ()) :
    ∃ length s, process env socket =
      some ([.read_uint32, .read length, .read_string s, .player_video, .dcp_video,
             .encode_locally, .write_size encoded.length, .write_data encoded], .ok f) := by
  obtain ⟨xml, pvf, ⟨length, buffer, s, h1, h2, h3, h4, h5⟩, h6, h7, h8⟩ := he
  exact ⟨length, s, by simp [process, h1, h2, h3, h4, h5, h6, h7, h8, h9, h10]⟩

/-- The job of a worker when `process` returns a frame number that is not negative:
the address of the peer is asked for, the socket is reset, and one timing record is
logged. -/
theorem job_of_frame (env : Env) (verbose : Bool) (socket : Nat) (t : List Event) (f : Int)
    (h : process env socket = some (t, .ok f)) (hf : 0 ≤ f) :
    ∃ middle ip, worker_thread_job env verbose socket =
        some (t ++ middle ++ [Event.log (encoded_entry env (env.peer socket) f ip)]) ∧
      middle.any Event.is_timing = false ∧ middle.any Event.is_write = false ∧
      (env.peer socket).remote_endpoint.toOption.getD "" = ip := by
  cases hre : (env.peer socket).remote_endpoint with
  | error what =>
    refine ⟨[Event.remote_endpoint] ++ caught what ++ [Event.reset socket]
      ++ (if verbose then [Event.cout_entry (encoded_entry env (env.peer socket) f "")]
          else []), "", ?_, ?_, ?_, rfl⟩
    · simp [worker_thread_job, h, hre, hf]
    · cases verbose <;> simp [caught, Event.is_timing]
    · cases verbose <;> simp [caught, Event.is_write]
  | ok address =>
    refine ⟨[Event.remote_endpoint] ++ [Event.reset socket]
      ++ (if verbose then [Event.cout_entry (encoded_entry env (env.peer socket) f address)]
          else []), address, ?_, ?_, ?_, rfl⟩
    · simp [worker_thread_job, h, hre, hf]
    · cases verbose <;> simp [Event.is_timing]
    · cases verbose <;> simp [Event.is_write]

/-- C13: for every job that is processed without error and whose frame index `f` is
not negative, the job of the worker logs exactly one timing record; its frame is `f`,
and its three durations are `seconds (after_read) - seconds (start)`,
`seconds (after_encode) - seconds (after_read)` and `seconds (end) - seconds
(after_encode)`, `end` being the reading of line 189; none of them is negative when
these four readings do not decrease.  (The values of `seconds` and their differences
are taken in the rationals.) -/
theorem timing_record_content (env : Env) (verbose : Bool) (socket : Nat) (f : Int)
    (hc : Completed env socket f) (hf : 0 ≤ f) :
    ∃ t ip, worker_thread_job env verbose socket = some t ∧
      t.countP Event.is_timing = 1 ∧
      Event.log (.encoded f ip
          (env.seconds (env.peer socket).after_read - env.seconds (env.peer socket).start)
          (env.seconds (env.peer socket).after_encode
            - env.seconds (env.peer socket).after_read)
          (env.seconds (env.peer socket).end_inner
            - env.seconds (env.peer socket).after_encode)) ∈ t ∧
      (env.seconds (env.peer socket).start ≤ env.seconds (env.peer socket).after_read →
        env.seconds (env.peer socket).after_read
          ≤ env.seconds (env.peer socket).after_encode →
        env.seconds (env.peer socket).after_encode
          ≤ env.seconds (env.peer socket).end_inner →
        0 ≤ env.seconds (env.peer socket).after_read - env.seconds (env.peer socket).start ∧
        0 ≤ env.seconds (env.peer socket).after_encode
            - env.seconds (env.peer socket).after_read ∧
        0 ≤ env.seconds (env.peer socket).end_inner
            - env.seconds (env.peer socket).after_encode) := by
  obtain ⟨t0, hp⟩ := process_completed env socket f hc
  obtain ⟨middle, ip, hj, hm, -, -⟩ := job_of_frame env verbose socket t0 f hp hf
  have hno := process_no_timing env socket t0 _ hp
  refine ⟨_, ip, hj, ?_, ?_, ?_⟩
  · have h0 : t0.countP Event.is_timing = 0 := by
      rw [List.countP_eq_zero]
      intro e he
      have := List.any_eq_false.1 hno e he
      simpa using this
    have h1 : middle.countP Event.is_timing = 0 := by
      rw [List.countP_eq_zero]
      intro e he
      have := List.any_eq_false.1 hm e he
      simpa using this
    simp [List.countP_append, h0, h1, encoded_entry, Event.is_timing, List.countP_cons]
  · simp [encoded_entry]
  · intro h1 h2 h3
    exact ⟨sub_nonneg.2 h1, sub_nonneg.2 h2, sub_nonneg.2 h3⟩

/-- C13 at work on socket 0 of the sample: frame 17, read in 1/4 s, encoded in 7/4 s,
sent in 1/2 s. -/
theorem timing_record_content_witness :
    ∃ t ip, worker_thread_job Sample.env false 0 = some t ∧
      t.countP Event.is_timing = 1 ∧
      Event.log (.encoded 17 ip (1 / 4) (7 / 4) (1 / 2)) ∈ t ∧
      (0 : ℚ) ≤ 1 / 4 ∧ (0 : ℚ) ≤ 7 / 4 ∧ (0 : ℚ) ≤ 1 / 2 := by
  obtain ⟨t, ip, h1, h2, h3, h4⟩ := timing_record_content Sample.env false 0 17
    ⟨[3, 2, 1], ⟨((2 : Int), (17 : Int)), [1, 2, 3],
      ⟨3, [2, 27, 0], [2, 27], rfl, rfl, rfl, rfl, rfl⟩, rfl, rfl, rfl⟩, rfl, rfl⟩
    (by decide)
  have e1 : Sample.env.seconds (Sample.env.peer 0).after_read
      - Sample.env.seconds (Sample.env.peer 0).start = 1 / 4 := by
    norm_num [Sample.env, Sample.peers, Sample.client]
  have e2 : Sample.env.seconds (Sample.env.peer 0).after_encode
      - Sample.env.seconds (Sample.env.peer 0).after_read = 7 / 4 := by
    norm_num [Sample.env, Sample.peers, Sample.client]
  have e3 : Sample.env.seconds (Sample.env.peer 0).end_inner
      - Sample.env.seconds (Sample.env.peer 0).after_encode = 1 / 2 := by
    norm_num [Sample.env, Sample.peers, Sample.client]
  rw [e1, e2, e3] at h3
  have h5 := h4 (by norm_num [Sample.env, Sample.peers, Sample.client])
    (by norm_num [Sample.env, Sample.peers, Sample.client])
    (by norm_num [Sample.env, Sample.peers, Sample.client])
  rw [e1, e2, e3] at h5
  exact ⟨t, ip, h1, h2, h3, h5⟩

/-! ## After a failed send, and after shutdown -/

/-- A worker that is busy is one of the workers. -/
theorem worker_index (ws : List Worker) (i : Nat) (w : Worker) (h : ws[i]? = some w) :
    i < ws.length := by
  rcases Nat.lt_or_ge i ws.length with hlt | hge
  · exact hlt
  · rw [List.getElem?_eq_none hge] at h
    cases h

/-- The job of a worker on a request that meets no error and whose frame is not
negative: the response is written, and exactly one timing record, for that frame, is
logged. -/
theorem job_of_encoded (env : Env) (verbose : Bool) (socket : Nat) (f : Int)
    (encoded : List Byte) (he : Encoded env socket f encoded)
    (h9 : (env.peer socket).write_size = .ok ())
    (h10 : (env.peer socket).write_data = .ok ()) (hf : 0 ≤ f) :
    ∃ t, worker_thread_job env verbose socket = some t ∧
      Event.write_size encoded.length ∈ t ∧
      Event.write_data encoded ∈ t ∧
      t.countP Event.is_timing = 1 ∧
      ∃ ip receive encode send, Event.log (.encoded f ip receive encode send) ∈ t := by
  obtain ⟨length, s, hp⟩ := process_encoded env socket f encoded he h9 h10
  obtain ⟨middle, ip, hj, hm, -, -⟩ := job_of_frame env verbose socket _ f hp hf
  have h0 : middle.countP Event.is_timing = 0 := by
    rw [List.countP_eq_zero]
    intro e hmem
    have := List.any_eq_false.1 hm e hmem
    simpa using this
  refine ⟨_, hj, by simp, by simp, ?_, ip,
    env.seconds (env.peer socket).after_read - env.seconds (env.peer socket).start,
    env.seconds (env.peer socket).after_encode - env.seconds (env.peer socket).after_read,
    env.seconds (env.peer socket).end_inner - env.seconds (env.peer socket).after_encode,
    by simp [encoded_entry]⟩
  simp [List.countP_append, h0, encoded_entry, Event.is_timing, List.countP_cons]

/-- C11: when worker `i` has claimed a job whose frame `index` was encoded and whose
response cannot be written, and another connection `next` waits at the front of the
queue of a running server, the next three stretches of worker `i` are these.  First
the failed job: the error `Send failed; frame index` is logged, no timing record is
logged, and the worker is back at the head of its loop.  Then the worker claims `next`.
Then, `next` being a job for a frame `f ≥ 0` that meets no error, its response is
written and exactly one timing record, for frame `f`, is logged, and the worker is at
the head of its loop again. -/
theorem send_failure_then_next_job (env : Env) (s : Server) (i socket next : Nat)
    (rest : List Nat) (index f : Int) (encoded response : List Byte) (what : String)
    (hw : s._worker_threads[i]? = some (.busy socket))
    (he : Encoded env socket index encoded)
    (hfail : (env.peer socket).write_size = .error what ∨
      ((env.peer socket).write_size = .ok () ∧ (env.peer socket).write_data = .error what))
    (hrun : s._terminate = false)
    (hq : s._queue = next :: rest)
    (hnext : Encoded env next f response)
    (hsize : (env.peer next).write_size = .ok ())
    (hdata : (env.peer next).write_data = .ok ())
    (hf : 0 ≤ f) :
    ∃ s1 s2 s3 t1 t2,
      step env s (.worker i) = some s1 ∧
      step env s1 (.worker i) = some s2 ∧
      step env s2 (.worker i) = some s3 ∧
      s1.trace = s.trace ++ t1 ∧
      Event.log (.error ("Send failed; frame " ++ toString index)) ∈ t1 ∧
      t1.any Event.is_timing = false ∧
      s1._worker_threads[i]? = some .idle ∧
      s2._worker_threads[i]? = some (.busy next) ∧
      s2._queue = rest ∧
      s2.claimed = s.claimed ++ [(i, next)] ∧
      s3.trace = s1.trace ++ t2 ∧
      Event.write_size response.length ∈ t2 ∧
      Event.write_data response ∈ t2 ∧
      t2.countP Event.is_timing = 1 ∧
      (∃ ip receive encode send, Event.log (.encoded f ip receive encode send) ∈ t2) ∧
      s3._worker_threads[i]? = some .idle := by
  have hi := worker_index _ _ _ hw
  -- the failed job
  obtain ⟨xml, pvf, ⟨length, buffer, s0, h1, h2, h3, h4, h5⟩, h6, h7, h8⟩ := he
  obtain ⟨t0, hp, hlog⟩ : ∃ t0, process env socket = some (t0, .error what) ∧
      Event.log (.error ("Send failed; frame " ++ toString index)) ∈ t0 := by
    rcases hfail with h9 | ⟨h9, h10⟩
    · exact ⟨[.read_uint32, .read length, .read_string s0, .player_video, .dcp_video,
          .encode_locally, .write_size encoded.length,
          .cerr ("Send failed; frame " ++ toString index ++ "\n"),
          .log (.error ("Send failed; frame " ++ toString index))],
        by simp [process, h1, h2, h3, h4, h5, h6, h7, h8, h9], by simp⟩
    · exact ⟨[.read_uint32, .read length, .read_string s0, .player_video, .dcp_video,
          .encode_locally, .write_size encoded.length, .write_data encoded,
          .cerr ("Send failed; frame " ++ toString index ++ "\n"),
          .log (.error ("Send failed; frame " ++ toString index))],
        by simp [process, h1, h2, h3, h4, h5, h6, h7, h8, h9, h10], by simp⟩
  have hj := job_of_error env s._verbose socket t0 what hp
  have hno := process_no_timing env socket t0 _ hp
  -- the next job
  obtain ⟨t2, hj2, hw1, hw2, hcount, hrecord⟩ :=
    job_of_encoded env s._verbose next f response hnext hsize hdata hf
  refine ⟨{ s with trace := s.trace ++ (t0 ++ caught what ++ [Event.reset socket]),
                   acceptor := notify_full s.acceptor,
                   _worker_threads := s._worker_threads.set i .idle },
    { s with trace := s.trace ++ (t0 ++ caught what ++ [Event.reset socket]),
             acceptor := notify_full s.acceptor,
             _queue := rest,
             claimed := s.claimed ++ [(i, next)],
             _worker_threads := (s._worker_threads.set i .idle).set i (.busy next) },
    { s with trace := s.trace ++ (t0 ++ caught what ++ [Event.reset socket]) ++ t2,
             acceptor := notify_full (notify_full s.acceptor),
             _queue := rest,
             claimed := s.claimed ++ [(i, next)],
             _worker_threads :=
               ((s._worker_threads.set i .idle).set i (.busy next)).set i .idle },
    t0 ++ caught what ++ [Event.reset socket], t2, ?_, ?_, ?_, rfl, ?_, ?_, ?_, ?_, rfl, rfl,
    rfl, hw1, hw2, hcount, hrecord, ?_⟩
  · simp [step, hw, worker_thread_unlocked, hj]
  · simp [step, hi, worker_thread_locked, hrun, hq]
  · simp [step, hi, worker_thread_unlocked, hj2]
  · simp [hlog]
  · simp [List.any_append, hno, caught, Event.is_timing]
  · simp [hi]
  · simp [hi]
  · simp [hi]

/-- C11 at work: in the sample, worker 0 has claimed socket 3 (frame 9, whose response
cannot be written) and socket 4 (frame 17) waits in the queue. -/
theorem send_failure_then_next_job_witness :
    (Sample.reach 2 Sample.frame_nine)._worker_threads = [.busy 3, .idle] ∧
      (Sample.reach 2 Sample.frame_nine)._queue = [4] ∧
      ∃ s1 s2 s3 t1 t2,
        step Sample.env (Sample.reach 2 Sample.frame_nine) (.worker 0) = some s1 ∧
        step Sample.env s1 (.worker 0) = some s2 ∧
        step Sample.env s2 (.worker 0) = some s3 ∧
        s1.trace = (Sample.reach 2 Sample.frame_nine).trace ++ t1 ∧
        Event.log (.error ("Send failed; frame " ++ toString (9 : Int))) ∈ t1 ∧
        t1.any Event.is_timing = false ∧
        s1._worker_threads[0]? = some .idle ∧
        s2._worker_threads[0]? = some (.busy 4) ∧
        s2._queue = [] ∧
        s2.claimed = (Sample.reach 2 Sample.frame_nine).claimed ++ [(0, 4)] ∧
        s3.trace = s1.trace ++ t2 ∧
        Event.write_size [3, 2, 1].length ∈ t2 ∧
        Event.write_data [3, 2, 1] ∈ t2 ∧
        t2.countP Event.is_timing = 1 ∧
        (∃ ip receive encode send, Event.log (.encoded 17 ip receive encode send) ∈ t2) ∧
        s3._worker_threads[0]? = some .idle := by
  have h := send_failure_then_next_job Sample.env (Sample.reach 2 Sample.frame_nine) 0 3 4 []
    9 17 [3, 2, 1] [3, 2, 1] "error during async_write" (by decide)
    ⟨((2 : Int), (9 : Int)), [1, 2, 3],
      ⟨3, [2, 19, 0], [2, 19], rfl, rfl, rfl, rfl, rfl⟩, rfl, rfl, rfl⟩
    (Or.inr ⟨rfl, rfl⟩) (by decide) (by decide)
    ⟨((2 : Int), (17 : Int)), [1, 2, 3],
      ⟨3, [2, 27, 0], [2, 27], rfl, rfl, rfl, rfl, rfl⟩, rfl, rfl, rfl⟩
    rfl rfl (by decide)
  exact ⟨by decide, by decide, h⟩

/-- A sequence of actions in two parts. -/
theorem exec_append (env : Env) (s : Server) (first second : List Action) :
    exec env s (first ++ second) = (exec env s first).bind (fun s1 => exec env s1 second) := by
  induction first generalizing s with
  | nil => simp [exec]
  | cons a rest ih =>
    simp only [List.cons_append, exec]
    cases step env s a with
    | none => rfl
    | some s1 => exact ih s1

/-- After the shutdown flag is set, no action clears it, nothing is claimed, and the
queue keeps what it holds. -/
theorem step_after_shutdown (env : Env) (s s1 : Server) (a : Action)
    (h : step env s a = some s1) (ht : s._terminate = true) :
    s1._terminate = true ∧ s1.claimed = s.claimed ∧ ∃ extra, s1._queue = s._queue ++ extra := by
  cases a with
  | accept error =>
    simp only [step] at h
    split at h
    · cases h
      cases error <;> exact ⟨ht, rfl, [], by simp [handle_accept]⟩
    · cases h
  | acceptor =>
    simp only [step] at h
    split at h
    · rename_i socket hacc
      cases h
      simp only [handle_accept_locked, ht, start_accept]
      simp
    · cases h
  | worker i =>
    simp only [step] at h
    split at h
    · cases h
      have hl : worker_thread_locked s i
          = { s with _worker_threads := s._worker_threads.set i .finished } := by
        simp [worker_thread_locked, ht]
      rw [hl]
      exact ⟨ht, rfl, [], by simp⟩
    · simp only [worker_thread_unlocked] at h
      split at h
      · cases h
      · cases h
        exact ⟨ht, rfl, [], by simp⟩
    · cases h
  | terminate => simp [step, ht] at h
  | wake_worker i =>
    simp only [step] at h
    split at h
    · cases h; exact ⟨ht, rfl, [], by simp⟩
    · cases h
  | wake_acceptor =>
    simp only [step] at h
    split at h
    · cases h; exact ⟨ht, rfl, [], by simp⟩
    · cases h

/-- The same over a sequence of actions after the shutdown flag is set. -/
theorem exec_after_shutdown (env : Env) (acts : List Action) (s s1 : Server)
    (h : exec env s acts = some s1) (ht : s._terminate = true) :
    s1._terminate = true ∧ s1.claimed = s.claimed ∧ ∃ extra, s1._queue = s._queue ++ extra := by
  induction acts generalizing s with
  | nil =>
    simp only [exec] at h
    cases h
    exact ⟨ht, rfl, [], by simp⟩
  | cons a rest ih =>
    simp only [exec] at h
    split at h
    · cases h
    · rename_i s2 hstep
      obtain ⟨h1, h2, e1, h3⟩ := step_after_shutdown env s s2 a hstep ht
      obtain ⟨h4, h5, e2, h6⟩ := ih s2 h h1
      exact ⟨h4, h5.trans h2, e1 ++ e2, by rw [h6, h3, List.append_assoc]⟩

/-- C12: once the shutdown flag is set, (1) whatever happens next, nothing is claimed
any more and the queue keeps every connection it holds; (2) a worker at the head of
its loop returns from `worker_thread`, whatever the queue holds; (3) a worker that has
claimed a job runs the whole job, the same calls as without the flag, and comes back
to the head of its loop. -/
theorem shutdown_stops_claims (env : Env) (s : Server) (ht : s._terminate = true) :
    (∀ acts s1, exec env s acts = some s1 →
      s1._terminate = true ∧ s1.claimed = s.claimed ∧
      ∃ extra, s1._queue = s._queue ++ extra) ∧
    (∀ i, s._worker_threads[i]? = some .idle →
      ∃ s1, step env s (.worker i) = some s1 ∧
        s1._worker_threads[i]? = some .finished ∧
        s1._queue = s._queue ∧ s1.claimed = s.claimed ∧ s1.trace = s.trace) ∧
    (∀ i socket t, s._worker_threads[i]? = some (.busy socket) →
      worker_thread_job env s._verbose socket = some t →
      ∃ s1, step env s (.worker i) = some s1 ∧
        s1.trace = s.trace ++ t ∧
        s1._worker_threads[i]? = some .idle) := by
  refine ⟨fun acts s1 h => exec_after_shutdown env acts s s1 h ht, ?_, ?_⟩
  · intro i hw
    have hi := worker_index _ _ _ hw
    refine ⟨{ s with _worker_threads := s._worker_threads.set i .finished }, ?_, ?_, rfl, rfl,
      rfl⟩
    · simp [step, hw, worker_thread_locked, ht]
    · simp [hi]
  · intro i socket t hw hj
    have hi := worker_index _ _ _ hw
    refine ⟨{ s with trace := s.trace ++ t,
                     acceptor := notify_full s.acceptor,
                     _worker_threads := s._worker_threads.set i .idle }, ?_, rfl, ?_⟩
    · simp [step, hw, worker_thread_unlocked, hj]
    · simp [hi]

/-- C12 at work: in the sample, four connections are queued, worker 0 claims socket 0,
and the shutdown flag is set.  Worker 1 then returns although sockets 1, 2 and 3 are
queued, and they stay queued; worker 0 runs its job to the end, timing record
included. -/
theorem shutdown_stops_claims_witness :
    (Sample.reach 2 Sample.shutdown)._queue = [1, 2, 3] ∧
      (Sample.reach 2 Sample.shutdown)._worker_threads = [.busy 0, .idle] ∧
      (Sample.reach 2 (Sample.shutdown ++ [.worker 1, .worker 0, .worker 0]))._worker_threads
        = [.finished, .finished] ∧
      (Sample.reach 2 (Sample.shutdown ++ [.worker 1, .worker 0, .worker 0])).trace.any
        Event.is_timing = true ∧
      ((Sample.reach 2 (Sample.shutdown ++ [.worker 1, .worker 0, .worker 0]))._terminate
          = true ∧
        (Sample.reach 2 (Sample.shutdown ++ [.worker 1, .worker 0, .worker 0])).claimed
          = (Sample.reach 2 Sample.shutdown).claimed ∧
        ∃ extra, (Sample.reach 2 (Sample.shutdown ++ [.worker 1, .worker 0, .worker 0]))._queue
          = (Sample.reach 2 Sample.shutdown)._queue ++ extra) := by
  have h := (shutdown_stops_claims Sample.env (Sample.reach 2 Sample.shutdown)
    (by decide)).1 [.worker 1, .worker 0, .worker 0]
    (Sample.reach 2 (Sample.shutdown ++ [.worker 1, .worker 0, .worker 0]))
    (by
      have h1 := reach_spec 2 (Sample.shutdown ++ [.worker 1, .worker 0, .worker 0])
        (by decide)
      have h2 := reach_spec 2 Sample.shutdown (by decide)
      rw [exec_append, h2] at h1
      exact h1)
  exact ⟨by decide, by decide, by decide, by decide, h⟩

/-! ## First in, first out -/

/-- C14: in every run of the server, the sockets claimed so far are, in the order of
their claims, the first of the sockets pushed so far, and the queue holds the others
in the order in which they were pushed; and an action that claims a socket takes the
one at the front of the queue, which is the oldest one left, and leaves the others in
place. -/
theorem claims_in_push_order (env : Env) (verbose : Bool) (num_threads : Int)
    (acts : List Action) (s : Server)
    (h : exec env (run verbose num_threads) acts = some s) :
    s.claimed.map Prod.snd = s.pushed.take s.claimed.length ∧
      s._queue = s.pushed.drop s.claimed.length ∧
      ∀ a s1, step env s a = some s1 → s1.claimed ≠ s.claimed →
        ∃ i socket, a = .worker i ∧ s._queue = socket :: s1._queue ∧
          s1.claimed = s.claimed ++ [(i, socket)] ∧
          s.pushed[s.claimed.length]? = some socket := by
  obtain ⟨-, -, -, h4⟩ := exec_handover env acts _ s h (run_handover verbose num_threads)
  have hlen : (s.claimed.map Prod.snd).length = s.claimed.length := by simp
  refine ⟨?_, ?_, ?_⟩
  · rw [h4, ← hlen, List.take_left]
  · rw [h4, ← hlen, List.drop_left]
  · intro a s1 hstep hne
    cases a with
    | accept error =>
      simp only [step] at hstep
      split at hstep
      · cases hstep
        exact absurd (by cases error <;> rfl) hne
      · cases hstep
    | acceptor =>
      simp only [step] at hstep
      split at hstep
      · cases hstep
        refine absurd ?_ hne
        simp only [handle_accept_locked, start_accept]
        split
        · rfl
        · split <;> rfl
      · cases hstep
    | worker i =>
      simp only [step] at hstep
      split at hstep
      · cases hstep
        simp only [worker_thread_locked] at hne ⊢
        split
        · rename_i ht hq
          simp [worker_thread_locked, ht, hq] at hne
        · rename_i ht
          simp [worker_thread_locked, ht] at hne
        · rename_i socket rest ht hq
          refine ⟨i, socket, rfl, by simp [hq], rfl, ?_⟩
          rw [h4, hq, List.getElem?_append_right (by simp)]
          simp
      · simp only [worker_thread_unlocked] at hstep
        split at hstep
        · cases hstep
        · cases hstep
          exact absurd rfl hne
      · cases hstep
    | terminate =>
      simp only [step] at hstep
      split at hstep
      · cases hstep
      · cases hstep
        exact absurd rfl hne
    | wake_worker i =>
      simp only [step] at hstep
      split at hstep
      · cases hstep; exact absurd rfl hne
      · cases hstep
    | wake_acceptor =>
      simp only [step] at hstep
      split at hstep
      · cases hstep; exact absurd rfl hne
      · cases hstep

/-- C14 at work: in the sample, sockets 0 to 3 are pushed in this order and the two
workers have claimed sockets 0 and 1; the next claim, by worker 1 after its job, takes
socket 2. -/
theorem claims_in_push_order_witness :
    (Sample.reach 2 (Sample.fill ++ [.worker 0, .worker 1, .worker 1])).pushed = [0, 1, 2, 3] ∧
      (Sample.reach 2 (Sample.fill ++ [.worker 0, .worker 1, .worker 1])).claimed
        = [(0, 0), (1, 1)] ∧
      (Sample.reach 2 (Sample.fill ++ [.worker 0, .worker 1, .worker 1]))._queue = [2, 3] ∧
      (step Sample.env (Sample.reach 2 (Sample.fill ++ [.worker 0, .worker 1, .worker 1]))
        (.worker 1)).map (fun s => (s.claimed, s._queue))
        = some ([(0, 0), (1, 1), (1, 2)], [3]) ∧
      (Sample.reach 2 (Sample.fill ++ [.worker 0, .worker 1, .worker 1])).claimed.map Prod.snd
        = (Sample.reach 2 (Sample.fill ++ [.worker 0, .worker 1, .worker 1])).pushed.take
            (Sample.reach 2 (Sample.fill ++ [.worker 0, .worker 1, .worker 1])).claimed.length ∧
      (Sample.reach 2 (Sample.fill ++ [.worker 0, .worker 1, .worker 1]))._queue
        = (Sample.reach 2 (Sample.fill ++ [.worker 0, .worker 1, .worker 1])).pushed.drop
            (Sample.reach 2 (Sample.fill ++ [.worker 0, .worker 1, .worker 1])).claimed.length := by
  have h := claims_in_push_order Sample.env false 2
    (Sample.fill ++ [.worker 0, .worker 1, .worker 1])
    (Sample.reach 2 (Sample.fill ++ [.worker 0, .worker 1, .worker 1]))
    (reach_spec 2 (Sample.fill ++ [.worker 0, .worker 1, .worker 1]) (by decide))
  exact ⟨by decide, by decide, by decide, by decide, h.1, h.2.1⟩

/-! ## The same request twice -/

/-- A header has the width it was asked for. -/
theorem header_length (width n : Nat) : (length_header width n).length = width := by
  induction width generalizing n with
  | zero => rfl
  | succ w ih => simp [length_header, ih]

/-- A header holds its number, as far as the number fits. -/
theorem header_value_header (width n : Nat) :
    header_value (length_header width n) = n % 256 ^ width := by
  induction width generalizing n with
  | zero => simp [length_header, header_value, Nat.mod_one]
  | succ w ih =>
    have h := ih (n / 256)
    simp only [header_value] at h ⊢
    simp only [length_header, List.foldl_append, List.foldl_cons, List.foldl_nil, h]
    rw [pow_succ, Nat.mul_comm (256 ^ w) 256, Nat.mod_mul]
    ring

/-- C15: for every job that is encoded and whose two writes succeed, the bytes that
`process` puts on the connection are a header of eight bytes followed by the encoded
bytes and nothing else; the header holds the number of encoded bytes (which is taken
to fit into eight bytes).  The width of the header is the one of section 6 of the
spec, see `length_header`. -/
theorem job_response_bytes (env : Env) (socket : Nat) (f : Int) (encoded : List Byte)
    (he : Encoded env socket f encoded)
    (h9 : (env.peer socket).write_size = .ok ())
    (h10 : (env.peer socket).write_data = .ok ()) :
    ∃ t, process env socket = some (t, .ok f) ∧
      wire 8 t = length_header 8 encoded.length ++ encoded ∧
      (length_header 8 encoded.length).length = 8 ∧
      (encoded.length < 2 ^ 64 →
        header_value (length_header 8 encoded.length) = encoded.length) := by
  obtain ⟨length, s, hp⟩ := process_encoded env socket f encoded he h9 h10
  refine ⟨_, hp, by simp [wire], header_length 8 _, ?_⟩
  intro hlt
  rw [header_value_header]
  exact Nat.mod_eq_of_lt (by norm_num at hlt ⊢; exact hlt)

/-- C15 at work on socket 0 of the sample: three encoded bytes. -/
theorem job_response_bytes_witness :
    ∃ t, process Sample.env 0 = some (t, .ok 17) ∧
      wire 8 t = [0, 0, 0, 0, 0, 0, 0, 3, 3, 2, 1] ∧
      (length_header 8 3).length = 8 ∧
      header_value (length_header 8 3) = 3 := by
  obtain ⟨t, h1, h2, h3, h4⟩ := job_response_bytes Sample.env 0 17 [3, 2, 1]
    ⟨((2 : Int), (17 : Int)), [1, 2, 3],
      ⟨3, [2, 27, 0], [2, 27], rfl, rfl, rfl, rfl, rfl⟩, rfl, rfl, rfl⟩ rfl rfl
  exact ⟨t, h1, by rw [h2]; decide, h3, h4 (by decide)⟩

/-- C16, as stated, fails: the reply of the sample responder to the token carries,
after its header of four bytes, the three bytes 50 50 0, which are not the serialised
document 50 50: a NUL byte follows the document, and the header counts it. -/
theorem discovery_reply_ends_in_nul :
    wire 4 (datagram Sample.env false 2 Sample.listening Sample.token).2
        = [0, 0, 0, 3] ++ [50, 50, 0] ∧
      Sample.env.write_to_string (ServerAvailable Sample.env 2) = [50, 50] ∧
      length_header 4 3 = [0, 0, 0, 3] := by
  decide

/-- C16, amended: for every discovery reply whose connection is made and whose length
is written, the bytes written are a header of four bytes followed by the serialised
document `ServerAvailable` with the fields `Threads` and `Version` and by one NUL
byte; the header holds the number of bytes that follow it, the NUL included (that
number is taken to fit into four bytes).  The width of the header is the one of
section 6 of the spec, see `length_header`. -/
theorem discovery_reply_bytes (env : Env) (verbose : Bool) (workers : Nat) (b : Broadcast)
    (r : Reception) (hl : b.listening = true)
    (hh : is_hello env (terminated (receive_from b r).buffer) = true)
    (hxml : r.xml_error = none) (hc : r.connect = .ok ()) (hw : r.write_size = .ok ()) :
    wire 4 (datagram env verbose workers b r).2
        = length_header 4
            ((env.write_to_string
                { root := "ServerAvailable",
                  children := [("Threads", env.raw_convert_size workers),
                               ("Version", env.raw_convert_int env.SERVER_LINK_VERSION)] }
              ++ [0]).length)
          ++ (env.write_to_string
                { root := "ServerAvailable",
                  children := [("Threads", env.raw_convert_size workers),
                               ("Version", env.raw_convert_int env.SERVER_LINK_VERSION)] }
              ++ [0]) ∧
      ((env.write_to_string (ServerAvailable env workers) ++ [0]).length < 2 ^ 32 →
        header_value (length_header 4
            (env.write_to_string (ServerAvailable env workers) ++ [0]).length)
          = (env.write_to_string (ServerAvailable env workers) ++ [0]).length) := by
  constructor
  · simp only [datagram, hl, if_true, broadcast_received, hh, hxml, hc, hw]
    cases verbose <;> simp [wire, ServerAvailable]
  · intro hlt
    rw [header_value_header]
    exact Nat.mod_eq_of_lt (by norm_num at hlt ⊢; exact hlt)

/-- The amended C16 at work: the reply of the sample responder to the token. -/
theorem discovery_reply_bytes_witness :
    wire 4 (datagram Sample.env false 2 Sample.listening Sample.token).2
        = [0, 0, 0, 3, 50, 50, 0] ∧
      header_value [0, 0, 0, 3] = ([50, 50, 0] : List Byte).length := by
  have h := discovery_reply_bytes Sample.env false 2 Sample.listening Sample.token rfl
    (by decide) rfl rfl rfl
  exact ⟨by rw [h.1]; decide, by decide⟩

/-! ## Ports -/

/-- C17, as stated, fails for the base port 65535: the acceptor listens on port 65535,
and `base_port + 1` is 65536, which the endpoints narrow to port 0: the responder is
bound to port 0 and the reply connects to port 0. -/
theorem discovery_port_wraps :
    acceptor_port Sample.last_port = 65535 ∧
      Sample.last_port.server_port_base + 1 = 65536 ∧
      listen_port Sample.last_port = 0 ∧
      connect_ports (datagram Sample.last_port false 2 Sample.listening Sample.token).2
        = [0] := by
  decide

/-- C17, amended: for every base port up to 65534, the acceptor listens on the base
port, the discovery responder is bound to the base port plus one, and every connection
that the responder opens goes to the sender of the datagram, on the base port plus
one. -/
theorem ports_of_base_port (env : Env) (hport : env.server_port_base + 1 < 65536) :
    acceptor_port env = env.server_port_base ∧
      listen_port env = env.server_port_base + 1 ∧
      ∀ (verbose : Bool) (workers : Nat) (b : Broadcast) (r : Reception),
        (∀ p ∈ connect_ports (datagram env verbose workers b r).2,
          p = env.server_port_base + 1) ∧
        ∀ address port, Event.connect address port ∈ (datagram env verbose workers b r).2 →
          address = r.sender := by
  refine ⟨Nat.mod_eq_of_lt (by omega), Nat.mod_eq_of_lt hport, ?_⟩
  intro verbose workers b r
  have hp : port_num (env.server_port_base + 1) = env.server_port_base + 1 :=
    Nat.mod_eq_of_lt hport
  simp only [datagram]
  cases hl : b.listening
  · simp [connect_ports]
  · simp only [if_true, broadcast_received]
    cases hh : is_hello env (terminated (receive_from b r).buffer)
    · simp [connect_ports]
    · cases hx : r.xml_error
      · cases verbose <;> cases hc : r.connect <;> cases hw : r.write_size <;>
          simp [connect_ports, hp, receive_from]
      · simp [connect_ports]

/-- The amended C17 at work: the sample server with base port 6192 and the token from
192.168.0.2. -/
theorem ports_of_base_port_witness :
    acceptor_port Sample.env = 6192 ∧ listen_port Sample.env = 6193 ∧
      connect_ports (datagram Sample.env false 2 Sample.listening Sample.token).2 = [6193] ∧
      ∀ p ∈ connect_ports (datagram Sample.env false 2 Sample.listening Sample.token).2,
        p = 6192 + 1 := by
  have h := ports_of_base_port Sample.env (by decide)
  exact ⟨h.1, h.2.1, by decide, (h.2.2 false 2 Sample.listening Sample.token).1⟩

/-! ## `ActiveCaptions` -/

/-- A loop that appends the chosen elements is a filter. -/
theorem foldl_push {β γ : Type} (p : β → Bool) (g : β → γ) (l : List β) (init : List γ) :
    l.foldl (fun acc j => if p j then acc ++ [g j] else acc) init
      = init ++ (l.filter p).map g := by
  induction l generalizing init with
  | nil => simp
  | cons x xs ih =>
    simp only [List.foldl_cons, ih]
    cases hp : p x <;> simp [List.filter_cons, hp]

/-- A loop that appends a list per element is a concatenation. -/
theorem foldl_append_map {β γ : Type} (h : β → List γ) (l : List β) (init : List γ) :
    l.foldl (fun acc i => acc ++ h i) init = init ++ (l.map h).flatten := by
  induction l generalizing init with
  | nil => simp
  | cons x xs ih => simp [ih]

/-- The test of line 57 in terms of the four times. -/
theorem burnt_test_eq {α : Type} (period : DCPTimePeriod) (j : Period α) :
    burnt_test period j
      = decide (max period.from_ j.from_ < min period.to_ (j.to_.getD DCPTime.max) ∧
          min period.to_ (j.to_.getD DCPTime.max) - max period.from_ j.from_
            > (period.to_ - period.from_).tdiv 2) := by
  simp only [burnt_test, DCPTimePeriod.overlap, DCPTimePeriod.duration]
  by_cases h : max period.from_ j.from_ ≥ min period.to_ (j.to_.getD DCPTime.max)
  · simp only [h, if_true]
    have : ¬ max period.from_ j.from_ < min period.to_ (j.to_.getD DCPTime.max) := not_lt.2 h
    simp [this]
  · simp only [h, if_false]
    have : max period.from_ j.from_ < min period.to_ (j.to_.getD DCPTime.max) := not_le.1 h
    simp [this]

/-- What one entry of the map adds to the list of `get_burnt`. -/
theorem get_burnt_entry {α : Type} (lock : Nat → Option CaptionContent)
    (period : DCPTimePeriod) (always_burn_captions : Bool) (i : Nat × List (Period α))
    (ps : List α) :
    (match lock i.1 with
      | none => ps
      | some caption =>
        if !caption.use || (!always_burn_captions && !caption.burn) then ps
        else i.2.foldl (fun ps j => if burnt_test period j then ps ++ [j.subs] else ps) ps)
      = ps ++ (i.2.filter (wanted_burnt lock period always_burn_captions i.1)).map Period.subs := by
  cases hl : lock i.1 with
  | none => simp [wanted_burnt, hl]
  | some caption =>
    simp only [foldl_push]
    have hw : (wanted_burnt lock period always_burn_captions i.1 : Period α → Bool)
        = fun j => (caption.use && (caption.burn || always_burn_captions))
            && burnt_test period j := by
      funext j
      simp only [wanted_burnt, hl, burnt_test_eq]
    rw [hw]
    cases caption.use <;> cases caption.burn <;> cases always_burn_captions <;> simp

/-- C19: `get_burnt (period, always_burn_captions)` returns, in the order in which they
are stored (content after content, and in the order of the list of each content), the
captions of exactly the stored periods whose content is alive and used, and burns or
captions are always burnt, and which, run to the maximum time when they have no end,
share with `period` more than half of the duration of `period`, the half taken as an
integer; when none of the contents that are alive is used, nothing is returned,
whatever `always_burn_captions` is. -/
theorem get_burnt_eq {α : Type} (lock : Nat → Option CaptionContent) (_data : Map α)
    (period : DCPTimePeriod) (always_burn_captions : Bool) :
    get_burnt lock _data period always_burn_captions
        = (_data.map (fun i =>
            (i.2.filter (wanted_burnt lock period always_burn_captions i.1)).map
              Period.subs)).flatten ∧
      ((∀ i ∈ _data, ∀ caption, lock i.1 = some caption → caption.use = false) →
        get_burnt lock _data period always_burn_captions = []) := by
  have heq : get_burnt lock _data period always_burn_captions
      = (_data.map (fun i =>
          (i.2.filter (wanted_burnt lock period always_burn_captions i.1)).map
            Period.subs)).flatten := by
    simp only [get_burnt, get_burnt_entry, foldl_append_map, List.nil_append]
  refine ⟨heq, ?_⟩
  intro hunused
  rw [heq]
  simp only [List.flatten_eq_nil_iff, List.mem_map]
  rintro l ⟨i, hi, rfl⟩
  simp only [List.map_eq_nil_iff, List.filter_eq_nil_iff]
  intro j _
  cases hl : lock i.1 with
  | none => simp [wanted_burnt, hl]
  | some caption => simp [wanted_burnt, hl, hunused i hi caption hl]

/-- C19 at work on the sample, for the period from 0 to 100: of content 1 (used,
burning) the captions 10 and 11 qualify and 12 is too short; content 2 (used, not
burning) counts only when captions are always burnt; content 3 (not used) and content
4 (gone) never count. -/
theorem get_burnt_sample :
    get_burnt Sample.lock Sample.data ⟨0, 100⟩ false = [10, 11] ∧
      get_burnt Sample.lock Sample.data ⟨0, 100⟩ true = [10, 11, 20] := by
  decide

/-- The test of line 76 says what C20 says. -/
theorem kept_test_eq {α : Type} (time : Int) :
    (kept_test time : Period α → Bool) = wanted_kept time := by
  funext j
  cases h : j.to_ <;> simp [kept_test, wanted_kept, h]

/-- Assigning at a key above all keys of the map puts the entry at the end. -/
theorem assign_last {α : Type} (m : Map α) (k : Nat) (v : List (Period α))
    (h : ∀ x ∈ m, x.1 < k) : m.assign k v = m ++ [(k, v)] := by
  induction m with
  | nil => rfl
  | cons x rest ih =>
    obtain ⟨k1, v1⟩ := x
    have h1 : k1 < k := h (k1, v1) (by simp)
    have h2 : ¬ k < k1 := by omega
    have h3 : ¬ k = k1 := by omega
    simp only [Map.assign, h2, h3, if_false, List.cons_append]
    rw [ih (fun y hy => h y (by simp [hy]))]

/-- The loop of `clear_before` over a map whose keys ascend, started with entries
whose keys lie below. -/
theorem clear_before_loop {α : Type} (time : Int) (d init : Map α)
    (hd : d.ordered) (hinit : ∀ x ∈ init, ∀ y ∈ d, x.1 < y.1) :
    d.foldl
        (fun updated i =>
          let as := i.2.foldl (fun as j => if kept_test time j then as ++ [j] else as) []
          if !as.isEmpty then updated.assign i.1 as else updated)
        init
      = init ++ d.filterMap (fun i =>
          if (i.2.filter (wanted_kept time)).isEmpty then none
          else some (i.1, i.2.filter (wanted_kept time))) := by
  induction d generalizing init with
  | nil => simp
  | cons i rest ih =>
    have hrest : Map.ordered rest := by
      unfold Map.ordered at hd ⊢
      simp only [List.map_cons, List.pairwise_cons] at hd
      exact hd.2
    have hlater : ∀ y ∈ rest, i.1 < y.1 := by
      unfold Map.ordered at hd
      simp only [List.map_cons, List.pairwise_cons, List.mem_map] at hd
      intro y hy
      exact hd.1 y.1 ⟨y, hy, rfl⟩
    have hinner : i.2.foldl (fun as j => if kept_test time j then as ++ [j] else as) []
        = i.2.filter (wanted_kept time) := by
      have := foldl_push (kept_test time) (fun j : Period α => j) i.2 []
      simpa [kept_test_eq] using this
    simp only [List.foldl_cons, hinner, List.filterMap_cons]
    cases hempty : (i.2.filter (wanted_kept time)).isEmpty
    · simp only [Bool.not_false, if_true, Bool.false_eq_true, if_false]
      rw [assign_last init i.1 _ (fun x hx => hinit x hx i (by simp))]
      rw [ih (init ++ [(i.1, i.2.filter (wanted_kept time))]) hrest]
      · simp
      · intro x hx y hy
        rcases List.mem_append.1 hx with hx | hx
        · exact hinit x hx y (by simp [hy])
        · simp only [List.mem_singleton] at hx
          subst hx
          exact hlater y hy
    · simp only [Bool.not_true, Bool.false_eq_true, if_false, if_true]
      exact ih init hrest (fun x hx y hy => hinit x hx y (by simp [hy]))

/-- C20: after `clear_before (time)` the map holds, content by content and in the
order they had, exactly the stored periods that have no end time or an end time that
is not earlier than `time`, unchanged; a content none of whose periods is left is no
longer in the map. -/
theorem clear_before_eq {α : Type} (_data : Map α) (time : Int) (hd : _data.ordered) :
    clear_before _data time
      = _data.filterMap (fun i =>
          if (i.2.filter (wanted_kept time)).isEmpty then none
          else some (i.1, i.2.filter (wanted_kept time))) := by
  have h := clear_before_loop time _data [] hd (by simp)
  simpa [clear_before] using h

/-- C20 at work on the sample map at time 50: of content 1 the captions 10 (to 100) and
11 (no end) stay and 12 (to 30) goes; at time 101 only caption 11 is left in the whole
map. -/
theorem clear_before_eq_witness :
    clear_before Sample.data 50
        = [(1, [⟨10, 0, some 100⟩, ⟨11, 40, none⟩]), (2, [⟨20, 0, some 100⟩]),
           (3, [⟨30, 0, some 100⟩]), (4, [⟨40, 0, some 100⟩])] ∧
      clear_before Sample.data 101 = [(1, [⟨11, 40, none⟩])] ∧
      clear_before Sample.data 101
        = Sample.data.filterMap (fun i =>
            if (i.2.filter (wanted_kept 101)).isEmpty then none
            else some (i.1, i.2.filter (wanted_kept 101))) := by
  have h := clear_before_eq Sample.data 101 (by unfold Map.ordered; decide)
  exact ⟨by decide, by decide, h⟩

/-! ## The queue bound, with and without the shutdown flag -/

/-- Once the shutdown flag is set, an action pushes at most what the acceptor still
holds: the number of pushes so far, plus one while the acceptor has not stopped, does
not grow. -/
theorem step_pushes_after_shutdown (env : Env) (s s1 : Server) (a : Action)
    (h : step env s a = some s1) (ht : s._terminate = true) :
    s1._terminate = true ∧
      s1.pushed.length + (if s1.acceptor = .stopped then 0 else 1)
        ≤ s.pushed.length + (if s.acceptor = .stopped then 0 else 1) := by
  cases a with
  | accept error =>
    simp only [step] at h
    split at h
    · rename_i socket hacc
      cases h
      cases error <;> simp [handle_accept, hacc, ht]
    · cases h
  | acceptor =>
    simp only [step] at h
    split at h
    · rename_i socket hacc
      cases h
      simp [handle_accept_locked, start_accept, hacc, ht]
    · cases h
  | worker i =>
    simp only [step] at h
    split at h
    · cases h
      simp [worker_thread_locked, ht]
    · rename_i socket hw
      simp only [worker_thread_unlocked] at h
      split at h
      · cases h
      · cases h
        refine ⟨ht, ?_⟩
        cases hacc : s.acceptor <;> simp [notify_full]
    · cases h
  | terminate =>
    simp [step, ht] at h
  | wake_worker i =>
    simp only [step] at h
    split at h
    · cases h
      exact ⟨ht, le_refl _⟩
    · cases h
  | wake_acceptor =>
    simp only [step] at h
    split at h
    · rename_i socket hacc
      cases h
      simp [hacc, ht]
    · cases h

/-- The same over a sequence of actions. -/
theorem exec_pushes_after_shutdown (env : Env) (acts : List Action) (s s1 : Server)
    (h : exec env s acts = some s1) (ht : s._terminate = true) :
    s1.pushed.length + (if s1.acceptor = .stopped then 0 else 1)
      ≤ s.pushed.length + (if s.acceptor = .stopped then 0 else 1) := by
  induction acts generalizing s with
  | nil =>
    simp only [exec, Option.some.injEq] at h
    subst h
    exact le_refl _
  | cons a rest ih =>
    simp only [exec] at h
    cases hs : step env s a with
    | none => simp [hs] at h
    | some s2 =>
      simp only [hs] at h
      have h2 := step_pushes_after_shutdown env s s2 a hs ht
      exact (ih s2 h h2.1).trans h2.2

/-- C26: in every state that the server with N workers reaches, the queue holds at most
2 × N connections while the shutdown flag is clear and at most 2 × N + 1 once it is
set; a queue above 2 × N means that the flag is set and that no accept is armed any
more; and from a state with the flag set on, at most one more connection is ever
pushed. -/
theorem queue_bound_with_shutdown (env : Env) (verbose : Bool) (num_threads : Int)
    (acts : List Action) (s : Server)
    (h : exec env (run verbose num_threads) acts = some s) :
    s._worker_threads.length = num_threads.toNat ∧
      (s._terminate = false → s._queue.length ≤ 2 * num_threads.toNat) ∧
      (s._terminate = true → s._queue.length ≤ 2 * num_threads.toNat + 1) ∧
      (2 * num_threads.toNat < s._queue.length →
        s._terminate = true ∧ s.acceptor = .stopped) ∧
      (s._terminate = true → ∀ more s1, exec env s more = some s1 →
        s1._terminate = true ∧ s1.pushed.length ≤ s.pushed.length + 1) := by
  have h0 : (run verbose num_threads)._queue.length
      ≤ 2 * (run verbose num_threads)._worker_threads.length
        + queue_slack (run verbose num_threads) := by
    simp [run_queue]
  have h1 := exec_queue_bound env acts _ s h h0
  rw [run_workers] at h1
  obtain ⟨hn, hq⟩ := h1
  rw [hn] at hq
  refine ⟨hn, ?_, ?_, ?_, ?_⟩
  · intro hrun
    simpa [queue_slack, hrun] using hq
  · intro _
    have hs : queue_slack s ≤ 1 := by
      unfold queue_slack
      split <;> omega
    omega
  · intro hlt
    by_cases hc : s._terminate = true ∧ s.acceptor = .stopped
    · exact hc
    · simp only [queue_slack, hc, if_false] at hq
      omega
  · intro ht more s1 hmore
    refine ⟨(exec_after_shutdown env more s s1 hmore ht).1, ?_⟩
    have h2 := exec_pushes_after_shutdown env more s s1 hmore ht
    have h3 : (if s.acceptor = .stopped then 0 else 1) ≤ 1 := by
      split <;> omega
    omega

/-- C26 at work: one worker; a connection is claimed, two wait in the queue, a fourth
is held by the acceptor when the flag is set, and is pushed afterwards: the queue then
holds 2 × 1 + 1 connections, and four have been pushed in all. -/
theorem queue_bound_with_shutdown_witness :
    (Sample.reach 1 Sample.shutdown_while_full)._terminate = true ∧
      (Sample.reach 1 Sample.shutdown_while_full)._queue = [1, 2, 3] ∧
      (Sample.reach 1 Sample.shutdown_while_full)._worker_threads.length = (1 : Int).toNat ∧
      ((Sample.reach 1 Sample.shutdown_while_full)._terminate = true →
        (Sample.reach 1 Sample.shutdown_while_full)._queue.length ≤ 2 * (1 : Int).toNat + 1) := by
  have h := queue_bound_with_shutdown Sample.env false 1 Sample.shutdown_while_full
    (Sample.reach 1 Sample.shutdown_while_full) (reach_spec _ _ (by decide))
  exact ⟨by decide, by decide, h.1, h.2.2.1⟩

/-! ## The descriptor is read as a C string -/

/-- The string built from bytes that hold a NUL is what stands before the first one. -/
theorem c_str_text (text rest : List Byte) (h : 0 ∉ text) :
    c_str (text ++ 0 :: rest) = some text := by
  induction text with
  | nil => simp [c_str]
  | cons b bs ih =>
    have hb : b ≠ 0 := fun hb => h (by simp [hb])
    have hbs : 0 ∉ bs := fun hbs => h (by simp [hbs])
    simp [c_str, hb, ih hbs]

/-- Building the string reads past the bytes exactly when they hold no NUL. -/
theorem c_str_none_iff (buffer : List Byte) : c_str buffer = none ↔ 0 ∉ buffer := by
  induction buffer with
  | nil => simp [c_str]
  | cons b bs ih =>
    by_cases hb : b = 0
    · simp [c_str, hb]
    · have hb1 : ¬ 0 = b := fun h => hb h.symm
      simp [c_str, hb, hb1, ih]

/-- Once the string `s` has been built, `process` has a result, and its first three
calls are the two reads and the parse of `s`. -/
theorem process_parses (env : Env) (socket length : Nat) (buffer s : List Byte)
    (hl : (env.peer socket).read_uint32 = .ok length)
    (hr : (env.peer socket).read length = .ok buffer)
    (hc : c_str buffer = some s) :
    ∃ t r, process env socket = some (t, r) ∧
      t.take 3 = [Event.read_uint32, Event.read length, Event.read_string s] := by
  simp only [process, hl, hr, hc]
  repeat' split
  all_goals exact ⟨_, _, rfl, by simp⟩

/-- C27: `process` reads the descriptor as a C string.  When the bytes received for the
descriptor are `text`, a NUL and `rest`, with no NUL in `text`, the string that is
built and parsed is `text`, whatever `rest` is; and the construction of the string
stays inside the received bytes exactly when they hold a NUL: without one, as with no
bytes at all, `process` has no defined result. -/
theorem descriptor_read_as_c_string (env : Env) (socket length : Nat) (buffer : List Byte)
    (hl : (env.peer socket).read_uint32 = .ok length)
    (hr : (env.peer socket).read length = .ok buffer) :
    (∀ text rest, buffer = text ++ 0 :: rest → 0 ∉ text →
        c_str buffer = some text ∧
        ∃ t r, process env socket = some (t, r) ∧
          t.take 3 = [Event.read_uint32, Event.read length, Event.read_string text]) ∧
      (process env socket = none ↔ 0 ∉ buffer) ∧
      (buffer = [] → process env socket = none) := by
  have hnone : process env socket = none ↔ 0 ∉ buffer := by
    rw [process_undefined_iff, ← c_str_none_iff]
    constructor
    · rintro ⟨length1, buffer1, h1, h2, h3⟩
      rw [hl] at h1
      cases h1
      rw [hr] at h2
      cases h2
      exact h3
    · intro h3
      exact ⟨length, buffer, hl, hr, h3⟩
  refine ⟨?_, hnone, ?_⟩
  · intro text rest hb ht
    have hc : c_str buffer = some text := by rw [hb]; exact c_str_text text rest ht
    exact ⟨hc, process_parses env socket length buffer text hl hr hc⟩
  · intro hb
    rw [hnone, hb]
    simp

/-- C27 at work: socket 0 of the sample sends the three bytes 2, 27, 0; the text that
is parsed is 2, 27. -/
theorem descriptor_read_as_c_string_witness :
    (Sample.env.peer 0).read_uint32 = .ok 3 ∧ (Sample.env.peer 0).read 3 = .ok [2, 27, 0] ∧
      c_str [2, 27, 0] = some [2, 27] ∧
      ∃ t r, process Sample.env 0 = some (t, r) ∧
        t.take 3 = [Event.read_uint32, Event.read 3, Event.read_string [2, 27]] :=
  ⟨rfl, rfl,
    (descriptor_read_as_c_string Sample.env 0 3 [2, 27, 0] rfl rfl).1 [2, 27] [] rfl (by decide)⟩

/-! ## When the acceptor is woken -/

/-- C23 fails on the code: with one worker and a full queue of two, the acceptor waits
with a third connection; worker 0 then takes connection 0 from the queue, which leaves
one connection in a queue with room for two, and the acceptor is still blocked in the
wait: it cannot run.  It is woken when worker 0 has done the job. -/
theorem acceptor_still_blocked_after_dequeue :
    (Sample.reach 1 Sample.full_and_waiting)._queue = [0, 1] ∧
      (Sample.reach 1 Sample.full_and_waiting).acceptor = .waiting 2 ∧
      step Sample.env (Sample.reach 1 Sample.full_and_waiting) (.worker 0)
        = some (Sample.reach 1 (Sample.full_and_waiting ++ [.worker 0])) ∧
      (Sample.reach 1 (Sample.full_and_waiting ++ [.worker 0])).claimed = [(0, 0)] ∧
      (Sample.reach 1 (Sample.full_and_waiting ++ [.worker 0]))._queue = [1] ∧
      (Sample.reach 1 (Sample.full_and_waiting ++ [.worker 0]))._queue.length
        < (Sample.reach 1 (Sample.full_and_waiting ++ [.worker 0]))._worker_threads.length * 2 ∧
      (Sample.reach 1 (Sample.full_and_waiting ++ [.worker 0])).acceptor = .waiting 2 ∧
      step Sample.env (Sample.reach 1 (Sample.full_and_waiting ++ [.worker 0])) .acceptor = none ∧
      (Sample.reach 1 (Sample.full_and_waiting ++ [.worker 0, .worker 0])).acceptor
        = .handling 2 := by
  refine ⟨by decide, by decide, by decide, by decide, by decide, by decide, by decide,
    by decide, by decide⟩

/-- C23, amended: while the acceptor is blocked in the wait on the full queue, an
action leaves it blocked unless it is the end of a job of some worker, the setting of
the shutdown flag, or a wake-up without notification; a dequeue, in particular, takes a
connection from the queue and leaves the acceptor blocked. -/
theorem acceptor_woken_after_job (env : Env) (s s1 : Server) (a : Action) (socket : Nat)
    (hw : s.acceptor = .waiting socket) (h : step env s a = some s1) :
    (s1.acceptor = .waiting socket ∨ s1.acceptor = .handling socket) ∧
      (s1.acceptor = .handling socket ↔
        (a = .terminate ∨ a = .wake_acceptor ∨
          ∃ i job, a = .worker i ∧ s._worker_threads[i]? = some (.busy job))) ∧
      (s1.claimed ≠ s.claimed → s1._queue = s._queue.tail ∧ s1.acceptor = .waiting socket) := by
  cases a with
  | accept error => simp [step, hw] at h
  | acceptor => simp [step, hw] at h
  | worker i =>
    simp only [step] at h
    split at h
    · rename_i hi
      cases h
      have hacc : (worker_thread_locked s i).acceptor = .waiting socket := by
        simp only [worker_thread_locked]
        split <;> exact hw
      refine ⟨Or.inl hacc, ?_, ?_⟩
      · simp [hacc, hi]
      · intro hc
        refine ⟨?_, hacc⟩
        revert hc
        simp only [worker_thread_locked]
        split <;> simp_all
    · rename_i job hi
      simp only [worker_thread_unlocked] at h
      split at h
      · cases h
      · cases h
        simp [hw, notify_full, hi]
    · cases h
  | terminate =>
    simp only [step] at h
    split at h
    · cases h
    · cases h
      simp [terminate, hw, notify_full]
  | wake_worker i =>
    simp only [step] at h
    split at h
    · cases h
      simp [hw]
    · cases h
  | wake_acceptor =>
    simp only [step, hw] at h
    cases h
    simp

/-- The amended C23 at work: in the sample where the acceptor waits on the full queue,
the dequeue by worker 0 leaves it waiting. -/
theorem acceptor_woken_after_job_witness :
    (Sample.reach 1 Sample.full_and_waiting).acceptor = .waiting 2 ∧
      (Sample.reach 1 (Sample.full_and_waiting ++ [.worker 0]))._queue
        = (Sample.reach 1 Sample.full_and_waiting)._queue.tail ∧
      (Sample.reach 1 (Sample.full_and_waiting ++ [.worker 0])).acceptor = .waiting 2 := by
  have h := acceptor_woken_after_job Sample.env (Sample.reach 1 Sample.full_and_waiting)
    (Sample.reach 1 (Sample.full_and_waiting ++ [.worker 0])) (.worker 0) 2
    (by decide) (by decide)
  exact ⟨by decide, h.2.2 (by decide)⟩

/-! ## `ActiveCaptions`: `add_from`, `add_to`, `have` and `clear` -/

/-- A key that `find` finds is a key of the map. -/
theorem find_key {α : Type} (m : Map α) (k : Nat) (l : List (Period α))
    (h : m.find k = some l) : k ∈ m.map Prod.fst := by
  induction m with
  | nil => simp [Map.find, List.lookup] at h
  | cons x rest ih =>
    obtain ⟨k1, v1⟩ := x
    by_cases hk : k = k1
    · simp [hk]
    · have hne : (k == k1) = false := by simpa using hk
      simp only [Map.find, List.lookup, hne] at h
      simp [ih h]

/-- In a map, `find` finds exactly the entries. -/
theorem find_iff_mem {α : Type} (m : Map α) (k : Nat) (l : List (Period α))
    (hm : m.ordered) : m.find k = some l ↔ (k, l) ∈ m := by
  induction m with
  | nil => simp [Map.find, List.lookup]
  | cons x rest ih =>
    obtain ⟨k1, v1⟩ := x
    simp only [Map.ordered, List.map_cons, List.pairwise_cons] at hm
    have ih1 := ih hm.2
    by_cases hk : k = k1
    · subst hk
      have heq : (k == k) = true := by simp
      simp only [Map.find, List.lookup, heq, Option.some.injEq, List.mem_cons, Prod.mk.injEq,
        true_and]
      constructor
      · intro h
        exact Or.inl h.symm
      · rintro (h | h)
        · exact h.symm
        · have := hm.1 k (List.mem_map.2 ⟨(k, l), h, rfl⟩)
          omega
    · have hne : (k == k1) = false := by simpa using hk
      simp only [Map.find, List.lookup, hne, List.mem_cons, Prod.mk.injEq, hk, false_and,
        false_or]
      exact ih1

/-- After `m[k] = v`, `find` finds `v` at `k` and what it found before elsewhere. -/
theorem find_assign {α : Type} (m : Map α) (k : Nat) (v : List (Period α)) (k1 : Nat) :
    (m.assign k v).find k1 = if k1 = k then some v else m.find k1 := by
  induction m with
  | nil =>
    by_cases h : k1 = k
    · simp [Map.assign, Map.find, List.lookup, h]
    · have hne : (k1 == k) = false := by simpa using h
      simp [Map.assign, Map.find, List.lookup, h, hne]
  | cons x rest ih =>
    obtain ⟨k2, v2⟩ := x
    simp only [Map.assign]
    by_cases h1 : k < k2
    · simp only [h1, if_true]
      by_cases h : k1 = k
      · simp [Map.find, List.lookup, h]
      · have hne : (k1 == k) = false := by simpa using h
        simp [Map.find, List.lookup, h, hne]
    · simp only [h1, if_false]
      by_cases h2 : k = k2
      · simp only [h2, if_true]
        by_cases h : k1 = k2
        · simp [Map.find, List.lookup, h]
        · have hne : (k1 == k2) = false := by simpa using h
          simp [Map.find, List.lookup, h, hne]
      · simp only [h2, if_false]
        by_cases h : k1 = k2
        · have h3 : ¬ k2 = k := fun h4 => h2 h4.symm
          simp [Map.find, List.lookup, h, h3]
        · have hne : (k1 == k2) = false := by simpa using h
          simp only [Map.find, List.lookup, hne]
          exact ih

/-- In a map that has the key `k`, `m[k] = v` replaces the value at `k` and nothing else. -/
theorem assign_present {α : Type} (m : Map α) (k : Nat) (v : List (Period α))
    (hm : m.ordered) (hk : k ∈ m.map Prod.fst) :
    m.assign k v = m.map (fun e => if e.1 = k then (k, v) else e) := by
  induction m with
  | nil => simp at hk
  | cons x rest ih =>
    obtain ⟨k1, v1⟩ := x
    simp only [Map.ordered, List.map_cons, List.pairwise_cons] at hm
    simp only [List.map_cons, List.mem_cons] at hk
    have hrest : ∀ e ∈ rest, k1 < e.1 := fun e he => hm.1 e.1 (List.mem_map.2 ⟨e, he, rfl⟩)
    by_cases h : k = k1
    · subst h
      have hsame : rest.map (fun e => if e.1 = k then (k, v) else e) = rest := by
        conv_rhs => rw [← List.map_id rest]
        apply List.map_congr_left
        intro e he
        have := hrest e he
        have hne : ¬ e.1 = k := by omega
        simp [hne]
      simp [Map.assign, hsame]
    · have hin : k ∈ rest.map Prod.fst := by
        rcases hk with hk | hk
        · exact absurd hk h
        · exact hk
      have hlt : k1 < k := hm.1 k hin
      have h1 : ¬ k < k1 := by omega
      have h2 : ¬ k1 = k := fun h3 => h h3.symm
      simp only [Map.assign, h1, h, if_false, List.map_cons, h2]
      rw [ih hm.2 hin]

/-- After `add_from`, the list at the content is the one that was there, or an empty
one, with the new period at its end. -/
theorem find_add_from {α : Type} (m : Map α) (content : Nat) (ps : α) (from_ : Int) :
    (add_from m content ps from_).find content = some (m.at content ++ [⟨ps, from_, none⟩]) := by
  simp only [add_from, find_assign, if_true]
  cases h : m.find content with
  | none => simp [Map.at, find_assign, h]
  | some l => simp [Map.at, h]

/-- C21: when the list stored at the content is `periods` and ends in `back`, `add_to`
puts `to` in as the end time of `back`, sets the out time of each text of the captions
of `back`, and changes nothing else in the map: the periods before `back` and the
lists of the other contents are as they were.  It returns the captions of `back` as
they are now, with the from time of `back`.  When the map comes from an `add_from` for
this content, `back` is the period added there: the captions and the from time given to
that call, without end time. -/
theorem add_to_sets_end {τ ρ : Type} (set_out : Int → τ → τ) (m : Map (PlayerCaption τ ρ))
    (content : Nat) (to_ : Int) (periods : List (Period (PlayerCaption τ ρ)))
    (back : Period (PlayerCaption τ ρ))
    (hm : m.ordered) (hf : m.find content = some periods) (hb : periods.getLast? = some back) :
    add_to set_out m content to_
        = some
            (m.map (fun e =>
              if e.1 = content then
                (content, periods.dropLast ++
                  [⟨⟨back.subs.text.map (set_out to_), back.subs.other⟩, back.from_, some to_⟩])
              else e),
             (⟨back.subs.text.map (set_out to_), back.subs.other⟩, back.from_)) ∧
      (∀ m0 ps from_, m = add_from m0 content ps from_ → back = ⟨ps, from_, none⟩) := by
  constructor
  · simp only [add_to, hf, hb]
    rw [assign_present m content _ hm (find_key m content periods hf)]
  · intro m0 ps from_ h0
    rw [h0, find_add_from] at hf
    simp only [Option.some.injEq] at hf
    rw [← hf] at hb
    simpa using hb.symm

/-- C21 at work: content 1 of the sample has a period that has ended and one from 40 with
the texts 8 and 9; `add_to (1, 90)` ends the second at 90, sets the out times of 8 and 9,
and returns those captions with the from time 40.  Content 2 is as it was. -/
theorem add_to_sets_end_witness :
    Sample.captions.find 1
        = some [⟨⟨[(7, some 100)], 0⟩, 0, some 100⟩, ⟨⟨[(8, none), (9, none)], 1⟩, 40, none⟩] ∧
      add_to Sample.set_out Sample.captions 1 90
        = some
            ([(1, [⟨⟨[(7, some 100)], 0⟩, 0, some 100⟩,
                   ⟨⟨[(8, some 90), (9, some 90)], 1⟩, 40, some 90⟩]),
              (2, [⟨⟨[], 2⟩, 10, none⟩])],
             (⟨[(8, some 90), (9, some 90)], 1⟩, 40)) := by
  have h := (add_to_sets_end Sample.set_out Sample.captions 1 90
    [⟨⟨[(7, some 100)], 0⟩, 0, some 100⟩, ⟨⟨[(8, none), (9, none)], 1⟩, 40, none⟩]
    ⟨⟨[(8, none), (9, none)], 1⟩, 40, none⟩
    (by unfold Map.ordered; decide) (by decide) (by decide)).1
  exact ⟨by decide, by rw [h]; rfl⟩

/-- What `find` finds in a map filtered list by list. -/
theorem find_filterMap {α : Type} (p : Period α → Bool) (m : Map α) (k : Nat)
    (hm : m.ordered) :
    Map.find
        (m.filterMap (fun i => if (i.2.filter p).isEmpty then none else some (i.1, i.2.filter p)))
        k
      = (m.find k).bind (fun l => if (l.filter p).isEmpty then none else some (l.filter p)) := by
  induction m with
  | nil => simp [Map.find, List.lookup]
  | cons x rest ih =>
    obtain ⟨k1, v1⟩ := x
    simp only [Map.ordered, List.map_cons, List.pairwise_cons] at hm
    have ih1 := ih hm.2
    simp only [Map.find] at ih1
    by_cases hk : k = k1
    · subst hk
      have heq : (k == k) = true := by simp
      by_cases he : (v1.filter p).isEmpty = true
      · have hnot : Map.find rest k = none := by
          cases hr : Map.find rest k with
          | none => rfl
          | some l =>
            have := hm.1 k (find_key rest k l hr)
            omega
        simp only [Map.find] at hnot
        simp only [Map.find, List.filterMap_cons, he, if_true, List.lookup, heq, Option.bind]
        rw [ih1, hnot]
        rfl
      · simp only [Map.find, List.filterMap_cons, if_neg he, List.lookup, heq, Option.bind]
    · have hne : (k == k1) = false := by simpa using hk
      by_cases he : (v1.filter p).isEmpty = true
      · simp only [Map.find, List.filterMap_cons, he, if_true, List.lookup, hne]
        exact ih1
      · simp only [Map.find, List.filterMap_cons, he, if_false, List.lookup, hne]
        exact ih1

/-- C22: `have (content)` is true exactly when the map holds a period of that content.
It is true right after `add_from` for the content, false for every content after
`clear`, and after `clear_before (time)` it is true exactly when a period of the content
has no end or an end that is not earlier than `time`: false when all its periods go. -/
theorem have_iff_stored {α : Type} (m : Map α) (content : Nat) (hm : m.ordered) :
    (have_ m content = true ↔ ∃ periods p, (content, periods) ∈ m ∧ p ∈ periods) ∧
      (∀ ps from_, have_ (add_from m content ps from_) content = true) ∧
      (∀ k, have_ (clear : Map α) k = false) ∧
      (∀ time, have_ (clear_before m time) content = true ↔
        ∃ periods p, (content, periods) ∈ m ∧ p ∈ periods ∧ wanted_kept time p = true) ∧
      (∀ time, (∀ periods p, (content, periods) ∈ m → p ∈ periods → wanted_kept time p = false) →
        have_ (clear_before m time) content = false) := by
  have h1 : ∀ m1 : Map α, m1.ordered →
      (have_ m1 content = true ↔ ∃ periods p, (content, periods) ∈ m1 ∧ p ∈ periods) := by
    intro m1 hm1
    simp only [have_]
    cases hf : m1.find content with
    | none =>
      simp only [Bool.false_eq_true, false_iff]
      rintro ⟨periods, p, hmem, _⟩
      rw [(find_iff_mem m1 content periods hm1).2 hmem] at hf
      cases hf
    | some l =>
      have hl := (find_iff_mem m1 content l hm1).1 hf
      constructor
      · intro hne
        cases l with
        | nil => simp at hne
        | cons p rest => exact ⟨p :: rest, p, hl, by simp⟩
      · rintro ⟨periods, p, hmem, hp⟩
        rw [(find_iff_mem m1 content periods hm1).2 hmem] at hf
        cases hf
        cases l with
        | nil => simp at hp
        | cons q rest => simp
  have h4 : ∀ time, have_ (clear_before m time) content = true ↔
      ∃ periods p, (content, periods) ∈ m ∧ p ∈ periods ∧ wanted_kept time p = true := by
    intro time
    have hloop := clear_before_loop time m [] hm (by simp)
    have hcb : clear_before m time
        = m.filterMap (fun i =>
            if (i.2.filter (wanted_kept time)).isEmpty then none
            else some (i.1, i.2.filter (wanted_kept time))) := by
      simpa [clear_before] using hloop
    simp only [have_, hcb, find_filterMap (wanted_kept time) m content hm]
    cases hf : m.find content with
    | none =>
      simp only [Option.bind, Bool.false_eq_true, false_iff]
      rintro ⟨periods, p, hmem, _⟩
      rw [(find_iff_mem m content periods hm).2 hmem] at hf
      cases hf
    | some l =>
      have hl := (find_iff_mem m content l hm).1 hf
      simp only [Option.bind]
      by_cases he : (l.filter (wanted_kept time)).isEmpty = true
      · simp only [he, if_true, Bool.false_eq_true, false_iff]
        rintro ⟨periods, p, hmem, hp, hw⟩
        rw [(find_iff_mem m content periods hm).2 hmem] at hf
        cases hf
        have hin : p ∈ l.filter (wanted_kept time) := List.mem_filter.2 ⟨hp, hw⟩
        rw [List.isEmpty_iff] at he
        rw [he] at hin
        simp at hin
      · simp only [he, if_false]
        constructor
        · intro _
          cases hfl : l.filter (wanted_kept time) with
          | nil => simp [hfl] at he
          | cons p rest =>
            have hin : p ∈ l.filter (wanted_kept time) := by simp [hfl]
            have := List.mem_filter.1 hin
            exact ⟨l, p, hl, this.1, this.2⟩
        · intro _
          simpa using he
  refine ⟨h1 m hm, ?_, ?_, h4, ?_⟩
  · intro ps from_
    simp [have_, find_add_from]
  · intro k
    simp [have_, clear, Map.find, List.lookup]
  · intro time hall
    cases hh : have_ (clear_before m time) content with
    | false => rfl
    | true =>
      obtain ⟨periods, p, hmem, hp, hw⟩ := (h4 time).1 hh
      rw [hall periods p hmem hp] at hw
      cases hw

/-- C22 at work on the sample map: content 3 has a period; after `add_from` content 9
has one; after `clear_before (101)` only content 1 has one. -/
theorem have_iff_stored_witness :
    have_ Sample.data 3 = true ∧ have_ Sample.data 9 = false ∧
      have_ (add_from Sample.data 9 90 5) 9 = true ∧
      have_ (clear_before Sample.data 101) 3 = false ∧
      have_ (clear_before Sample.data 101) 1 = true ∧
      (have_ Sample.data 3 = true ↔ ∃ periods p, (3, periods) ∈ Sample.data ∧ p ∈ periods) :=
  ⟨by decide, by decide, by decide, by decide, by decide,
    (have_iff_stored Sample.data 3 (by unfold Map.ordered; decide)).1⟩

/-! ## `SubtitleContent`: the join constructor and `identifier` -/

/-- A test finds something in a list of pairs exactly when two elements at the same
place pass it. -/
theorem zip_any_iff {φ : Type} (q : φ → φ → Bool) (l1 l2 : List φ) :
    (l1.zip l2).any (fun jk => q jk.1 jk.2) = true ↔
      ∃ (i : Nat) (f g : φ), l1[i]? = some f ∧ l2[i]? = some g ∧ q f g = true := by
  induction l1 generalizing l2 with
  | nil => simp
  | cons a as ih =>
    cases l2 with
    | nil => simp
    | cons b bs =>
      simp only [List.zip_cons_cons, List.any_cons, Bool.or_eq_true, ih bs]
      constructor
      · rintro (h | ⟨i, f, g, h1, h2, h3⟩)
        · exact ⟨0, a, b, by simp, by simp, h⟩
        · exact ⟨i + 1, f, g, by simpa using h1, by simpa using h2, h3⟩
      · rintro ⟨i, f, g, h1, h2, h3⟩
        cases i with
        | zero =>
          simp only [List.getElem?_cons_zero, Option.some.injEq] at h1 h2
          subst h1
          subst h2
          exact Or.inl h3
        | succ i =>
          simp only [List.getElem?_cons_succ] at h1 h2
          exact Or.inr ⟨i, f, g, h1, h2, h3⟩

/-- Two `double`s that are not NaN are unequal for `!=` exactly when they are not the
same value. -/
theorem double_ne_iff (a b : Double) (ha : a ≠ .nan) (hb : b ≠ .nan) :
    a.ne b = true ↔ a ≠ b := by
  cases a <;> cases b <;> simp_all [Double.ne]

/-- A NaN is unequal to every `double`, itself included. -/
theorem double_ne_nan (b : Double) : Double.ne .nan b = true ∧ b.ne .nan = true := by
  cases b <;> simp [Double.ne]

/-- One turn of the loop throws exactly when one of its comparisons finds the element
unequal to the first one. -/
theorem join_check_iff {φ : Type} (font_ne : φ → φ → Bool) (ref sc : SubtitleContent φ) :
    (∃ why, join_check font_ne ref sc = some why) ↔ unequal font_ne ref sc := by
  have hz := zip_any_iff font_ne ref.fonts sc.fonts
  simp only [join_check, unequal, bne_iff_ne, ne_eq]
  by_cases h1 : sc.use_subtitles = ref.use_subtitles
  swap
  · simp [h1]
  by_cases h2 : sc.burn_subtitles = ref.burn_subtitles
  swap
  · simp [h1, h2]
  by_cases h3 : (sc.subtitle_x_offset).ne ref.subtitle_x_offset = true
  · simp [h1, h2, h3]
  by_cases h4 : (sc.subtitle_y_offset).ne ref.subtitle_y_offset = true
  · simp [h1, h2, h3, h4]
  by_cases h5 : (sc.subtitle_x_scale).ne ref.subtitle_x_scale = true
  · simp [h1, h2, h3, h4, h5]
  by_cases h6 : (sc.subtitle_y_scale).ne ref.subtitle_y_scale = true
  · simp [h1, h2, h3, h4, h5, h6]
  by_cases h7 : sc.fonts.length = ref.fonts.length
  swap
  · simp [h1, h2, h3, h4, h5, h6, h7]
  by_cases h8 : (ref.fonts.zip sc.fonts).any (fun jk => font_ne jk.1 jk.2) = true
  · have h9 := hz.1 h8
    simp only [h1, h2, h3, h4, h5, h6, h7, h8, not_true_eq_false, if_false, if_true,
      false_or, Bool.false_eq_true]
    exact ⟨fun _ => h9, fun _ => ⟨_, rfl⟩⟩
  · have h9 : ¬ ∃ (i : Nat) (f g : φ), ref.fonts[i]? = some f ∧ sc.fonts[i]? = some g ∧
        font_ne f g = true := fun h => h8 (hz.2 h)
    simp only [h1, h2, h3, h4, h5, h6, h7, h8, not_true_eq_false, if_false, false_or,
      Bool.false_eq_true]
    constructor
    · rintro ⟨why, hw⟩
      cases hw
    · intro h
      exact absurd h h9

/-- Without a NaN among their offsets and scales, two contents are found unequal by the
comparisons exactly when they differ. -/
theorem unequal_iff_differs {φ : Type} (font_ne : φ → φ → Bool) (ref sc : SubtitleContent φ)
    (href : ref.numbers) (hsc : sc.numbers) :
    unequal font_ne ref sc ↔ differs font_ne ref sc := by
  obtain ⟨r1, r2, r3, r4⟩ := href
  obtain ⟨s1, s2, s3, s4⟩ := hsc
  simp only [unequal, differs, double_ne_iff _ _ s1 r1, double_ne_iff _ _ s2 r2,
    double_ne_iff _ _ s3 r3, double_ne_iff _ _ s4 r4]

/-- The first result of a search is there exactly when some element gives one. -/
theorem findSome_iff {β γ : Type} (f : β → Option γ) (l : List β) :
    (∃ e, l.findSome? f = some e) ↔ ∃ x ∈ l, ∃ e, f x = some e := by
  induction l with
  | nil => simp
  | cons x xs ih =>
    simp only [List.findSome?_cons, List.mem_cons, exists_eq_or_imp]
    cases hx : f x with
    | none => simpa using ih
    | some e => simp

/-- C24 fails on the code: the list holds one content, whose X offset is a NaN.  No
content of the list differs from the first one, which is that content itself, and the
constructor throws `JoinError` for the X offset: at line 128 the offset is compared with
itself by `!=`, and a NaN is unequal to itself. -/
theorem join_throws_for_nan :
    SubtitleContent.join (fun f g => f != g) (.ok "a.srt") [Sample.not_a_number]
        = some (.error (.join_error .subtitle_x_offset)) ∧
      ¬ ∃ sc ∈ [Sample.not_a_number], differs (fun f g => f != g) Sample.not_a_number sc := by
  constructor
  · simp [SubtitleContent.join, join_check, Sample.not_a_number, Sample.english, Double.ne]
  · simp only [differs, List.mem_singleton, exists_eq_left, ne_eq, not_true_eq_false,
      false_or]
    rintro ⟨i, f, g, hf, hg, hfg⟩
    rw [hf] at hg
    cases hg
    simp at hfg

/-- C24, amended: given a non-empty list of subtitle contents, and once the constructor
of the base class has returned, the join constructor has an outcome; it throws
`JoinError` exactly when, for some content of the list, the first one included, one of
the comparisons with the first content by `!=` is true: of the use-subtitles flags, the
burn-subtitles flags, an offset or a scale as `double`s (a NaN being unequal to every
value, itself included), the numbers of fonts, or two fonts at the same position; when
none is, it builds the object with the settings of the first content.  When no offset
and no scale in the list is a NaN, it throws `JoinError` exactly when some content of
the list differs from the first one in one of these settings. -/
theorem join_error_iff {φ : Type} (font_ne : φ → φ → Bool) (base : Throws String)
    (content_identifier : String) (c : List (SubtitleContent φ)) (ref : SubtitleContent φ)
    (rest : List (SubtitleContent φ))
    (hc : c = ref :: rest) (hbase : base = .ok content_identifier) :
    ((∃ why, SubtitleContent.join font_ne base c = some (.error (.join_error why))) ↔
        ∃ sc ∈ c, unequal font_ne ref sc) ∧
      ((¬ ∃ sc ∈ c, unequal font_ne ref sc) →
        SubtitleContent.join font_ne base c
          = some (.ok { ref with content_identifier := content_identifier })) ∧
      (∀ what, SubtitleContent.join font_ne base c ≠ some (.error (.base what))) ∧
      SubtitleContent.join font_ne base c ≠ none ∧
      ((∀ sc ∈ c, sc.numbers) →
        ((∃ why, SubtitleContent.join font_ne base c = some (.error (.join_error why))) ↔
          ∃ sc ∈ c, differs font_ne ref sc)) := by
  subst hc
  subst hbase
  have hf := findSome_iff (join_check font_ne ref) (ref :: rest)
  have hd : (∃ x ∈ ref :: rest, ∃ e, join_check font_ne ref x = some e)
      ↔ ∃ sc ∈ ref :: rest, unequal font_ne ref sc := by
    constructor
    · rintro ⟨x, hx, he⟩
      exact ⟨x, hx, (join_check_iff font_ne ref x).1 he⟩
    · rintro ⟨x, hx, he⟩
      exact ⟨x, hx, (join_check_iff font_ne ref x).2 he⟩
  have hn : (∀ sc ∈ ref :: rest, sc.numbers) →
      ((∃ sc ∈ ref :: rest, unequal font_ne ref sc)
        ↔ ∃ sc ∈ ref :: rest, differs font_ne ref sc) := by
    intro hall
    have href := hall ref (by simp)
    constructor
    · rintro ⟨x, hx, he⟩
      exact ⟨x, hx, (unequal_iff_differs font_ne ref x href (hall x hx)).1 he⟩
    · rintro ⟨x, hx, he⟩
      exact ⟨x, hx, (unequal_iff_differs font_ne ref x href (hall x hx)).2 he⟩
  cases hs : (ref :: rest).findSome? (join_check font_ne ref) with
  | none =>
    have hno : ¬ ∃ sc ∈ ref :: rest, unequal font_ne ref sc := by
      intro h
      obtain ⟨e, he⟩ := hf.2 (hd.2 h)
      rw [hs] at he
      cases he
    have hthrow : ¬ ∃ why, SubtitleContent.join font_ne (.ok content_identifier) (ref :: rest)
        = some (.error (.join_error why)) := by
      rintro ⟨why, hw⟩
      simp only [SubtitleContent.join, hs] at hw
      cases hw
    refine ⟨⟨fun h => absurd h hthrow, fun h => absurd h hno⟩, ?_, ?_, ?_, ?_⟩
    · intro _
      simp only [SubtitleContent.join, hs]
    · intro what h
      simp only [SubtitleContent.join, hs] at h
      cases h
    · intro h
      simp only [SubtitleContent.join, hs] at h
      cases h
    · intro hall
      exact ⟨fun h => absurd h hthrow, fun h => absurd ((hn hall).2 h) hno⟩
  | some e =>
    have hyes : ∃ sc ∈ ref :: rest, unequal font_ne ref sc := hd.1 (hf.1 ⟨e, hs⟩)
    have hthrow : ∃ why, SubtitleContent.join font_ne (.ok content_identifier) (ref :: rest)
        = some (.error (.join_error why)) := ⟨e, by simp only [SubtitleContent.join, hs]⟩
    refine ⟨⟨fun _ => hyes, fun _ => hthrow⟩, ?_, ?_, ?_, ?_⟩
    · intro h
      exact absurd hyes h
    · intro what h
      simp only [SubtitleContent.join, hs] at h
      cases h
    · intro h
      simp only [SubtitleContent.join, hs] at h
      cases h
    · intro hall
      exact ⟨fun _ => (hn hall).1 hyes, fun _ => hthrow⟩

/-- The amended C24 at work: the English and the French sample contents differ in
nothing that the constructor compares, and are joined; with the content whose second
font is another one in the list, the constructor throws for the fonts. -/
theorem join_error_iff_witness :
    SubtitleContent.join (fun f g => f != g) (.ok "a.srt") [Sample.english, Sample.french]
        = some (.ok { Sample.english with content_identifier := "a.srt" }) ∧
      SubtitleContent.join (fun f g => f != g) (.ok "a.srt")
          [Sample.english, Sample.french, Sample.other_font]
        = some (.error (.join_error .fonts)) ∧
      ((∃ why, SubtitleContent.join (fun f g => f != g) (.ok "a.srt")
            [Sample.english, Sample.french, Sample.other_font]
          = some (.error (.join_error why))) ↔
        ∃ sc ∈ [Sample.english, Sample.french, Sample.other_font],
          unequal (fun f g => f != g) Sample.english sc) :=
  ⟨by simp [SubtitleContent.join, join_check, Sample.english, Sample.french, Double.ne],
   by simp [SubtitleContent.join, join_check, Sample.english, Sample.french, Sample.other_font,
     Double.ne],
   (join_error_iff (fun f g => f != g) (.ok "a.srt") "a.srt"
      [Sample.english, Sample.french, Sample.other_font] Sample.english
      [Sample.french, Sample.other_font] rfl rfl).1⟩

/-- C25: two subtitle contents that agree on the identifier of the base class, on the
two scales, on the two offsets and on the fonts have the same identifier, whatever
their subtitle languages (and their use and burn flags) are. -/
theorem identifier_ignores_language {φ : Type} (raw_convert : Double → String)
    (file : φ → Option String) (a b : SubtitleContent φ)
    (h0 : a.content_identifier = b.content_identifier)
    (h1 : a.subtitle_x_scale = b.subtitle_x_scale)
    (h2 : a.subtitle_y_scale = b.subtitle_y_scale)
    (h3 : a.subtitle_x_offset = b.subtitle_x_offset)
    (h4 : a.subtitle_y_offset = b.subtitle_y_offset)
    (h5 : a.fonts = b.fonts) :
    a.identifier raw_convert file = b.identifier raw_convert file := by
  simp only [SubtitleContent.identifier, h0, h1, h2, h3, h4, h5]

/-- C25 at work: the English and the French sample contents have different languages
and the same identifier. -/
theorem identifier_ignores_language_witness :
    Sample.english.subtitle_language ≠ Sample.french.subtitle_language ∧
      Sample.english.identifier (fun _ => "1") Sample.file
        = Sample.french.identifier (fun _ => "1") Sample.file :=
  ⟨by decide,
    identifier_ignores_language (fun _ => "1") Sample.file Sample.english Sample.french
      rfl rfl rfl rfl rfl rfl⟩

end Dcpomatic
